import Mathlib

/-!
Shallow embedding of the LivingMemories photo-restoration service:
the relational rows and thin query wrappers of `src/database.js`, the
HTTP handlers of `src/server.js` (upload, enhance, save-to-library,
photo read/delete, folder listing, tags), and the flat-list-to-tree
folder conversion of `public/library.js`, together with theorems about
the specified behaviour.

Modelling conventions:
* Postgres row ids, generated UUID fragments and `new Date()` timestamps
  are all drawn from one monotone `tick` counter on the database state.
* Supabase `.single()` returns an error (code PGRST116) when the filtered
  set does not have exactly one row; a rethrown Javascript error is the
  `Except.error` branch.
* External collaborators (blob store, signed URLs, `fetch`, the Gemini
  model) are either modelled as deterministic functions where their value
  does not matter, or supplied per-request through an environment record
  whose fields say if each call succeeds or throws.
* Image byte buffers are modelled as `String`; the SHA-256 checksum is an
  abstract injective tag on the buffer.
-/

namespace LivingMemories

/-- Status column of `enhancement_jobs` (`database.js`: 'queued', 'running',
'succeeded', 'failed'). -/
inductive JobStatus where
  | queued
  | running
  | succeeded
  | failed
deriving DecidableEq, Repr

/-- Row of the `storage_objects` table (`database.js` createStorageObject). -/
structure StorageObjectRow where
  id : Nat
  user_id : String
  bucket : String
  object_key : String
  checksum_sha256 : String
  bytes : Nat
  mime_type : String
deriving DecidableEq, Repr

/-- Row of the `photos` table (`database.js` createPhoto / updatePhoto). -/
structure PhotoRow where
  id : Nat
  user_id : String
  folder_id : Option Int
  title : String
  description : Option String
  captured_date : Option String
  assigned_date : Option String
  favorite : Bool
  created_at : Nat
  updated_at : Nat
  deleted_at : Option Nat
deriving DecidableEq, Repr

/-- Row of the `photo_versions` table (`database.js` createPhotoVersion). -/
structure PhotoVersionRow where
  id : Nat
  user_id : String
  photo_id : Nat
  storage_object_id : Nat
  is_original : Bool
  parent_version_id : Option Nat
  label : String
  notes : Option String
  created_at : Nat
  deleted_at : Option Nat
deriving DecidableEq, Repr

/-- Row of the `enhancement_jobs` table (`database.js` createEnhancementJob and
its update wrappers). The opaque `parameters` bag only ever carries the
`additionalInstructions` string in this code base. -/
structure EnhancementJobRow where
  id : Nat
  user_id : String
  photo_id : Nat
  input_version_id : Nat
  output_version_id : Option Nat
  status : JobStatus
  model_name : String
  model_version : String
  paramInstructions : String
  error_message : Option String
  queued_at : Nat
  started_at : Option Nat
  finished_at : Option Nat
deriving DecidableEq, Repr

/-- Row of the `folders` table (`database.js` createFolder / getUserFolders). -/
structure FolderRow where
  id : Int
  user_id : String
  parent_id : Option Int
  name : String
  sort_order : Int
  created_at : Nat
  deleted_at : Option Nat
deriving DecidableEq, Repr

/-- Row of the `tags` table (`database.js` createTag). -/
structure TagRow where
  id : Nat
  user_id : String
  name : String
deriving DecidableEq, Repr

/-- Row of the `comments` table (`database.js` createComment). -/
structure CommentRow where
  id : Nat
  user_id : String
  photo_id : Nat
  version_id : Option Nat
  body : String
  created_at : Nat
  deleted_at : Option Nat
deriving DecidableEq, Repr

/-- The persisted relational state (spec section 6: tables storage_objects,
photos, photo_versions, enhancement_jobs, folders, tags, photo_tags,
comments), plus the monotone counter that supplies fresh ids, generated
object-key fragments and timestamps. -/
structure Db where
  storage_objects : List StorageObjectRow
  photos : List PhotoRow
  photo_versions : List PhotoVersionRow
  enhancement_jobs : List EnhancementJobRow
  folders : List FolderRow
  tags : List TagRow
  photo_tags : List (Nat × Nat)
  comments : List CommentRow
  tick : Nat
deriving DecidableEq, Repr

/-- Errors surfaced by the supabase client and rethrown by `database.js`:
PGRST116 (`.single()` without exactly one row, handled explicitly in
getOrCreateProfile), Postgres 23505 (unique violation, handled in
addTagToPhoto), Postgres 23503 (foreign-key violation), and any other
thrown Javascript error carrying a message. -/
inductive DbErr where
  | noRows
  | uniqueViolation
  | foreignKeyViolation
  | thrown (msg : String)
deriving DecidableEq, Repr

/-- The `error.message` string the handlers read off a caught error. -/
def DbErr.message : DbErr → String
  | .noRows => "JSON object requested, multiple (or no) rows returned"
  | .uniqueViolation => "duplicate key value violates unique constraint"
  | .foreignKeyViolation => "violates foreign key constraint"
  | .thrown m => m

/-- Javascript `a || b` on an optional string (empty string is falsy). -/
def jsOrStr (a : Option String) (b : String) : String :=
  match a with
  | some s => if s = "" then b else s
  | none => b

/-- Javascript truthiness of an optional integer (null, undefined and 0 are
falsy). -/
def jsTruthyInt : Option Int → Bool
  | some i => i != 0
  | none => false

/-- Model of `database.js` calculateChecksum: SHA-256 of the buffer via the
external crypto module, abstracted as an injective tag on the modelled
bytes. -/
def calculateChecksum (buffer : String) : String :=
  "sha256:" ++ buffer

/-- Model of `database.js` uploadToStorage: writes the blob to the external
store and returns bucket 'photos' plus the generated object key
`userId/(originals|enhanced)/{randomId}.{ext}` with the extension taken
from `mimeType.split('/')[1] || 'jpg'`. The random UUID is drawn from the
tick counter. -/
def uploadToStorage (db : Db) (userId : String) (_fileBuffer : String)
    (mimeType : String) (isOriginal : Bool) : Db × String × String :=
  let rawExt := (mimeType.splitOn "/").getD 1 ""
  let ext := if rawExt = "" then "jpg" else rawExt
  let objectKey :=
    userId ++ "/" ++ (if isOriginal then "originals" else "enhanced") ++ "/" ++
      toString db.tick ++ "." ++ ext
  ({ db with tick := db.tick + 1 }, "photos", objectKey)

/-- Model of `database.js` getSignedUrl: the external storage service issues a
time-limited URL for the object; the token is opaque, so the model returns a
deterministic marker containing bucket and key. -/
def getSignedUrlPure (bucket objectKey : String) : String :=
  "signed:" ++ bucket ++ "/" ++ objectKey

/-- `database.js` createStorageObject: insert one storage_objects row and
return it (`.select().single()`). -/
def createStorageObject (db : Db) (userId bucket objectKey checksum : String)
    (bytes : Nat) (mimeType : String) : Db × StorageObjectRow :=
  let row : StorageObjectRow :=
    { id := db.tick, user_id := userId, bucket := bucket,
      object_key := objectKey, checksum_sha256 := checksum,
      bytes := bytes, mime_type := mimeType }
  ({ db with storage_objects := db.storage_objects ++ [row],
             tick := db.tick + 1 }, row)

/-- `database.js` createPhoto: insert one photos row with
`folder_id: folderId || null` and return it. -/
def createPhoto (db : Db) (userId : String) (folderId : Option Int)
    (title : String) (description : Option String)
    (capturedDate : Option String) : Db × PhotoRow :=
  let row : PhotoRow :=
    { id := db.tick, user_id := userId,
      folder_id := if jsTruthyInt folderId then folderId else none,
      title := title, description := description,
      captured_date := capturedDate, assigned_date := none,
      favorite := false, created_at := db.tick, updated_at := db.tick,
      deleted_at := none }
  ({ db with photos := db.photos ++ [row], tick := db.tick + 1 }, row)

/-- `database.js` createPhotoVersion: insert one photo_versions row with
`is_original: isOriginal || false` and `parent_version_id:
parentVersionId || null`, and return it. -/
def createPhotoVersion (db : Db) (userId : String) (photoId storageObjectId : Nat)
    (isOriginal : Bool) (parentVersionId : Option Nat) (label : String)
    (notes : Option String) : Db × PhotoVersionRow :=
  let row : PhotoVersionRow :=
    { id := db.tick, user_id := userId, photo_id := photoId,
      storage_object_id := storageObjectId, is_original := isOriginal,
      parent_version_id := parentVersionId, label := label, notes := notes,
      created_at := db.tick, deleted_at := none }
  ({ db with photo_versions := db.photo_versions ++ [row],
             tick := db.tick + 1 }, row)

/-- A photo_versions row together with its nested storage_objects row, as the
`versions:photo_versions(*, storage:storage_objects(*))` select embeds it. -/
structure VersionView where
  row : PhotoVersionRow
  storage : Option StorageObjectRow
deriving DecidableEq, Repr

/-- The shape returned by `database.js` getPhoto: the photos row with its
nested versions (each with storage) and enhancement jobs. -/
structure PhotoView where
  row : PhotoRow
  versions : List VersionView
  jobs : List EnhancementJobRow
deriving DecidableEq, Repr

/-- Nested version views for one photo id: every photo_versions row of the
photo, in table order, with its storage object; the nested select carries no
deleted_at filter and, because the server uses the service-role key, no
row-level user filter. -/
def versionViews (db : Db) (photoId : Nat) : List VersionView :=
  (db.photo_versions.filter (fun v => v.photo_id == photoId)).map
    (fun v => { row := v,
                storage := db.storage_objects.find?
                  (fun s => s.id == v.storage_object_id) })

/-- `database.js` getPhoto: select the photos row by id and user with
`deleted_at` null, together with nested versions and jobs; `.single()`
errors (PGRST116) when no such row exists. -/
def getPhoto (db : Db) (photoId : Nat) (userId : String) :
    Except DbErr PhotoView :=
  match db.photos.find?
      (fun p => p.id == photoId && p.user_id == userId && p.deleted_at == none) with
  | none => .error .noRows
  | some p =>
      .ok { row := p,
            versions := versionViews db photoId,
            jobs := db.enhancement_jobs.filter (fun j => j.photo_id == photoId) }

/-- `database.js` getPhotoVersions: the photo's versions filtered by user and
`deleted_at` null, ordered by created_at ascending, each with its storage
object. -/
def getPhotoVersions (db : Db) (photoId : Nat) (userId : String) :
    List VersionView :=
  (List.insertionSort (fun a b : PhotoVersionRow => a.created_at ≤ b.created_at)
      (db.photo_versions.filter
        (fun v => v.photo_id == photoId && v.user_id == userId &&
          v.deleted_at == none))).map
    (fun v => { row := v,
                storage := db.storage_objects.find?
                  (fun s => s.id == v.storage_object_id) })

/-- `database.js` updatePhoto: update the photos row matching id and user
(the write does not filter deleted_at), stamping updated_at; `.select()
.single()` errors unless exactly one row matched. The `updates` object is
modelled as a row transformer applied before the updated_at stamp. -/
def updatePhoto (db : Db) (photoId : Nat) (userId : String)
    (f : PhotoRow → PhotoRow) : Except DbErr (Db × PhotoRow) :=
  match db.photos.filter (fun p => p.id == photoId && p.user_id == userId) with
  | [p] =>
      .ok ({ db with
              photos := db.photos.map
                (fun q => if q.id == photoId && q.user_id == userId then
                  { f q with updated_at := db.tick } else q),
              tick := db.tick + 1 },
           { f p with updated_at := db.tick })
  | _ => .error .noRows

/-- `database.js` softDeletePhoto: updatePhoto setting `deleted_at` to the
current time. -/
def softDeletePhoto (db : Db) (photoId : Nat) (userId : String) :
    Except DbErr (Db × PhotoRow) :=
  updatePhoto db photoId userId (fun p => { p with deleted_at := some db.tick })

/-- A list item of `database.js` getUserPhotos: the photos row with nested
versions. -/
structure PhotoListItem where
  row : PhotoRow
  versions : List VersionView
deriving DecidableEq, Repr

/-- `database.js` getUserPhotos: photos of the user with `deleted_at` null,
optionally filtered by folder (the `folderId` argument distinguishes
undefined / null / a concrete folder) and by favorite, ordered by
created_at descending, then windowed by `range(offset, offset+limit-1)`;
also returns the exact pre-window count. -/
def getUserPhotos (db : Db) (userId : String) (folderId : Option (Option Int))
    (limit : Nat) (offset : Nat) (favorites : Bool) :
    List PhotoListItem × Nat :=
  let base := db.photos.filter
    (fun p => p.user_id == userId && p.deleted_at == none)
  let byFolder := match folderId with
    | none => base
    | some none => base.filter (fun p => p.folder_id == none)
    | some (some fid) => base.filter (fun p => p.folder_id == some fid)
  let byFav := if favorites then byFolder.filter (fun p => p.favorite) else byFolder
  let ordered := List.insertionSort
    (fun a b : PhotoRow => b.created_at ≤ a.created_at) byFav
  let page := (ordered.drop offset).take limit
  (page.map (fun p => { row := p, versions := versionViews db p.id }), byFav.length)

/-- `database.js` createEnhancementJob: insert one enhancement_jobs row with
status 'queued' and the parameters bag, and return it. -/
def createEnhancementJob (db : Db) (userId : String) (photoId inputVersionId : Nat)
    (modelName modelVersion instructions : String) : Db × EnhancementJobRow :=
  let row : EnhancementJobRow :=
    { id := db.tick, user_id := userId, photo_id := photoId,
      input_version_id := inputVersionId, output_version_id := none,
      status := .queued, model_name := modelName, model_version := modelVersion,
      paramInstructions := instructions, error_message := none,
      queued_at := db.tick, started_at := none, finished_at := none }
  ({ db with enhancement_jobs := db.enhancement_jobs ++ [row],
             tick := db.tick + 1 }, row)

/-- `database.js` updateEnhancementJob: update the enhancement_jobs row
matching id and user with the given fields — the wrapper places no guard of
any kind on the current status; `.select().single()` errors unless exactly
one row matched. -/
def updateEnhancementJob (db : Db) (jobId : Nat) (userId : String)
    (f : EnhancementJobRow → EnhancementJobRow) :
    Except DbErr (Db × EnhancementJobRow) :=
  match db.enhancement_jobs.filter
      (fun j => j.id == jobId && j.user_id == userId) with
  | [j] =>
      .ok ({ db with
              enhancement_jobs := db.enhancement_jobs.map
                (fun k => if k.id == jobId && k.user_id == userId then f k else k),
              tick := db.tick + 1 },
           f j)
  | _ => .error .noRows

/-- `database.js` startEnhancementJob: set status 'running' and started_at. -/
def startEnhancementJob (db : Db) (jobId : Nat) (userId : String) :
    Except DbErr (Db × EnhancementJobRow) :=
  updateEnhancementJob db jobId userId
    (fun j => { j with status := .running, started_at := some db.tick })

/-- `database.js` completeEnhancementJob: set status 'succeeded', the output
version and finished_at. -/
def completeEnhancementJob (db : Db) (jobId : Nat) (userId : String)
    (outputVersionId : Nat) : Except DbErr (Db × EnhancementJobRow) :=
  updateEnhancementJob db jobId userId
    (fun j => { j with status := .succeeded,
                       output_version_id := some outputVersionId,
                       finished_at := some db.tick })

/-- `database.js` failEnhancementJob: set status 'failed', the error message
and finished_at. -/
def failEnhancementJob (db : Db) (jobId : Nat) (userId : String)
    (errorMessage : String) : Except DbErr (Db × EnhancementJobRow) :=
  updateEnhancementJob db jobId userId
    (fun j => { j with status := .failed,
                       error_message := some errorMessage,
                       finished_at := some db.tick })

/-- Sibling order used by the folder queries: sort_order ascending, then name
ascending. -/
def folderLE (a b : FolderRow) : Prop :=
  a.sort_order < b.sort_order ∨ (a.sort_order = b.sort_order ∧ a.name ≤ b.name)

instance : DecidableRel folderLE := fun a b => by
  unfold folderLE; infer_instance

instance : IsTotal FolderRow folderLE where
  total a b := by
    rcases lt_trichotomy a.sort_order b.sort_order with h | h | h
    · exact Or.inl (Or.inl h)
    · rcases le_total a.name b.name with hn | hn
      · exact Or.inl (Or.inr ⟨h, hn⟩)
      · exact Or.inr (Or.inr ⟨h.symm, hn⟩)
    · exact Or.inr (Or.inl h)

instance : IsTrans FolderRow folderLE where
  trans a b c hab hbc := by
    rcases hab with h1 | ⟨e1, n1⟩
    · rcases hbc with h2 | ⟨e2, _⟩
      · exact Or.inl (h1.trans h2)
      · exact Or.inl (e2 ▸ h1)
    · rcases hbc with h2 | ⟨e2, n2⟩
      · exact Or.inl (e1 ▸ h2)
      · exact Or.inr ⟨e1.trans e2, n1.trans n2⟩

/-- `database.js` getUserFolders: folders of the user with `deleted_at` null,
filtered to `parent_id` null when `parentId` is null and to the given parent
otherwise, ordered by sort_order ascending then name ascending. -/
def getUserFolders (db : Db) (userId : String) (parentId : Option Int) :
    List FolderRow :=
  let base := db.folders.filter
    (fun f => f.user_id == userId && f.deleted_at == none)
  let matched := match parentId with
    | none => base.filter (fun f => f.parent_id == none)
    | some p => base.filter (fun f => f.parent_id == some p)
  List.insertionSort folderLE matched

/-- `database.js` getAllUserFolders: every folder of the user with
`deleted_at` null, in the same order. -/
def getAllUserFolders (db : Db) (userId : String) : List FolderRow :=
  List.insertionSort folderLE
    (db.folders.filter (fun f => f.user_id == userId && f.deleted_at == none))

/-- The insert behind `database.js` addTagToPhoto. The photo_tags junction
table's composite key and foreign keys belong to the persisted schema (spec
section 6), which is outside src; inserting an existing pair raises 23505 —
the code comment `ignore duplicate` and its explicit 23505 check attest the
unique constraint — and a dangling photo or tag id raises 23503. -/
def photoTagsInsert (db : Db) (photoId tagId : Nat) : Except DbErr Db :=
  if (photoId, tagId) ∈ db.photo_tags then .error .uniqueViolation
  else if db.photos.any (fun p => p.id == photoId) &&
          db.tags.any (fun t => t.id == tagId) then
    .ok { db with photo_tags := db.photo_tags ++ [(photoId, tagId)] }
  else .error .foreignKeyViolation

/-- `database.js` addTagToPhoto: insert into photo_tags; an error with code
23505 is swallowed (`if (error && error.code !== '23505') throw error`),
every other error is rethrown. -/
def addTagToPhoto (db : Db) (photoId tagId : Nat) : Except DbErr Db :=
  match photoTagsInsert db photoId tagId with
  | .ok db' => .ok db'
  | .error e => if e = .uniqueViolation then .ok db else .error e

/-- `database.js` createComment: insert one comments row and return it. -/
def createComment (db : Db) (userId : String) (photoId : Nat)
    (versionId : Option Nat) (body : String) : Db × CommentRow :=
  let row : CommentRow :=
    { id := db.tick, user_id := userId, photo_id := photoId,
      version_id := versionId, body := body, created_at := db.tick,
      deleted_at := none }
  ({ db with comments := db.comments ++ [row], tick := db.tick + 1 }, row)

/-- Fixed model id (`server.js` MODEL_ID). -/
def MODEL_ID : String := "gemini-2.5-flash-image"

/-- Inline image payload of a Gemini response part (`part.inlineData`). -/
structure InlineData where
  data : String
  mimeType : Option String
deriving DecidableEq, Repr

/-- One part of a Gemini candidate or top-level parts array: an optional
inline image and an optional text. -/
structure GeminiPart where
  inlineData : Option InlineData
  text : Option String
deriving DecidableEq, Repr

/-- One response candidate; `parts` is `candidate.content?.parts`, `none`
when the content or parts field is missing. -/
structure GeminiCandidate where
  parts : Option (List GeminiPart)
deriving DecidableEq, Repr

/-- Shape of the external model response the handlers inspect:
`response.candidates` and the fallback `response.parts`. -/
structure GeminiResponse where
  candidates : Option (List GeminiCandidate)
  parts : Option (List GeminiPart)
deriving DecidableEq, Repr

/-- The inner extraction loop (`server.js` 261-267): the first part of a list
carrying inlineData, if any. -/
def firstInline : List GeminiPart → Option InlineData
  | [] => none
  | p :: rest =>
      match p.inlineData with
      | some d => some d
      | none => firstInline rest

/-- Javascript truthiness of the accumulated enhancedImageData: null and the
empty string are falsy. -/
def inlineTruthy : Option InlineData → Bool
  | some d => d.data != ""
  | none => false

/-- The outer extraction loop (`server.js` 258-269): per candidate, the first
inlineData part overwrites the accumulator, and the loop stops as soon as the
accumulated data is truthy. The accumulator is falsy at every recursive
call. -/
def scanCandidates : List GeminiCandidate → Option InlineData → Option InlineData
  | [], acc => acc
  | c :: rest, acc =>
      match firstInline (c.parts.getD []) with
      | some d => if d.data != "" then some d else scanCandidates rest (some d)
      | none => scanCandidates rest acc

/-- The whole image extraction (`server.js` 255-279): scan the candidates,
then, while the accumulator is still falsy, fall back to `response.parts`
where the first inlineData part is taken unconditionally. -/
def extractInline (r : GeminiResponse) : Option InlineData :=
  let fromCands := scanCandidates (r.candidates.getD []) none
  if inlineTruthy fromCands then fromCands
  else
    match r.parts with
    | some ps =>
        match firstInline ps with
        | some d => some d
        | none => fromCands
    | none => fromCands

/-- `part.inlineData.mimeType || 'image/png'`. -/
def inlineMime (d : InlineData) : String :=
  match d.mimeType with
  | some m => if m = "" then "image/png" else m
  | none => "image/png"

/-- The first truthy text of a part list (`if (part.text)` skips missing and
empty text). -/
def firstText : List GeminiPart → Option String
  | [] => none
  | p :: rest =>
      match p.text with
      | some t => if t != "" then some t else firstText rest
      | none => firstText rest

/-- The error-text loop (`server.js` 282-291): the inner loop breaks at the
first truthy text of a candidate but the outer loop has no break, so a later
candidate with text overwrites an earlier one; starts from the empty
string. -/
def extractErrorText (cands : List GeminiCandidate) : String :=
  cands.foldl
    (fun acc c =>
      match firstText (c.parts.getD []) with
      | some t => t
      | none => acc)
    ""

/-- A multipart file as multer's memory storage presents it. -/
structure MFile where
  buffer : String
  mimetype : String
  size : Nat
  originalname : String
deriving DecidableEq, Repr

/-- Request to POST /api/photos: the authenticated user, the multipart
`image` file, and the body fields. -/
structure UploadReq where
  userId : String
  file : Option MFile
  title : Option String
  folderId : Option Int
deriving DecidableEq, Repr

/-- Outcome of POST /api/photos: resulting state, HTTP status, the created
photo id on success. -/
structure UploadOutcome where
  db : Db
  httpStatus : Nat
  photoId : Option Nat
deriving DecidableEq, Repr

/-- POST /api/photos handler (`server.js` 118-178): upload to storage, create
the storage_objects row, the photos row, and the single original version
with label 'Original'; storage and database writes are modelled on their
success path (the reference code has no rollback for a partial chain). -/
def photosUploadHandler (db : Db) (req : UploadReq) : UploadOutcome :=
  match req.file with
  | none => { db := db, httpStatus := 400, photoId := none }
  | some file =>
      let (db1, bucket, objectKey) :=
        uploadToStorage db req.userId file.buffer file.mimetype true
      let checksum := calculateChecksum file.buffer
      let (db2, storageObject) :=
        createStorageObject db1 req.userId bucket objectKey checksum
          file.size file.mimetype
      let (db3, photo) :=
        createPhoto db2 req.userId req.folderId
          (jsOrStr req.title file.originalname) none none
      let (db4, _version) :=
        createPhotoVersion db3 req.userId photo.id storageObject.id true
          none "Original" none
      { db := db4, httpStatus := 200, photoId := some photo.id }

/-- Per-request outcomes of the external calls the enhance handler makes, in
the order it makes them: the signed URL for the input object, the image
fetch (yielding the modelled bytes), the Gemini call (yielding the response
or a thrown message), the storage upload of the result, and the signed URL
for the result object. An `Except.error` is the call throwing with that
message. -/
structure EnhanceEnv where
  inputSignedUrl : Except String String
  fetchImage : Except String String
  gemini : Except String GeminiResponse
  enhancedUpload : Except String Unit
  resultSignedUrl : Except String String

/-- Request to POST /api/photos/:photoId/enhance. -/
structure EnhanceReq where
  userId : String
  photoId : Nat
  additionalInstructions : Option String
  versionId : Option Nat
deriving DecidableEq, Repr

/-- Outcome of the enhance handler: the resulting state, the HTTP status, the
response error text if any, and the sequence of status values written to the
job row, in write order. -/
structure EnhanceOutcome where
  db : Db
  httpStatus : Nat
  bodyErr : Option String
  trace : List JobStatus
deriving DecidableEq, Repr

/-- Whether the first list starts with the second. -/
def listPfx : List Char → List Char → Bool
  | _, [] => true
  | [], _ :: _ => false
  | a :: as, b :: bs => a == b && listPfx as bs

/-- Whether the first list contains the second as a contiguous run. -/
def listHasSub : List Char → List Char → Bool
  | [], sub => sub.isEmpty
  | a :: as, sub => listPfx (a :: as) sub || listHasSub as sub

/-- Javascript `hay.includes(sub)`. -/
def jsIncludes (hay sub : String) : Bool :=
  listHasSub hay.data sub.data

/-- The compensating write of the enhance handler's catch block: when a job
was created, best-effort failEnhancementJob with the error message, its own
failure swallowed by `.catch(console.error)`; yields the state and the
status-write trace. -/
def enhanceCatchStep (db : Db) (userId : String)
    (job : Option EnhancementJobRow) (msg : String)
    (trace : List JobStatus) : Db × List JobStatus :=
  match job with
  | some j =>
      match failEnhancementJob db j.id userId msg with
      | .ok (d, _) => (d, trace ++ [JobStatus.failed])
      | .error _ => (db, trace)
  | none => (db, trace)

/-- The catch block of the enhance handler (`server.js` 346-371): the
best-effort job-failure write, then 422 for region or safety messages and
500 otherwise. -/
def enhanceCatch (db : Db) (userId : String) (job : Option EnhancementJobRow)
    (msg : String) (trace : List JobStatus) : EnhanceOutcome :=
  let step : Db × List JobStatus := enhanceCatchStep db userId job msg trace
  if jsIncludes msg "not available in your country" then
    { db := step.1, httpStatus := 422,
      bodyErr := some "Image generation is not available in your region.",
      trace := step.2 }
  else if jsIncludes msg "SAFETY" then
    { db := step.1, httpStatus := 422,
      bodyErr := some "This image could not be processed due to content restrictions.",
      trace := step.2 }
  else
    { db := step.1, httpStatus := 500,
      bodyErr := some "Something went wrong while processing your image.",
      trace := step.2 }

/-- The no-image branch of the enhance handler (`server.js` 281-297): mark
the job failed with the extracted error text or 'No image returned', respond
422 with the extracted text or the generic message. -/
def enhanceNoImage (db : Db) (req : EnhanceReq) (job : EnhancementJobRow)
    (resp : GeminiResponse) (trace : List JobStatus) : EnhanceOutcome :=
  let errorText := extractErrorText (resp.candidates.getD [])
  match failEnhancementJob db job.id req.userId
      (if errorText = "" then "No image returned" else errorText) with
  | .ok (db', _) =>
      { db := db', httpStatus := 422,
        bodyErr := some (if errorText = ""
          then "Unable to process image. Please try a different photo."
          else errorText),
        trace := trace ++ [JobStatus.failed] }
  | .error e => enhanceCatch db req.userId (some job) e.message trace

/-- The success tail of the enhance handler (`server.js` 299-344): upload the
decoded result, create its storage_objects row, count the photo's existing
non-original versions, create the enhanced version with label
`Enhanced v(count+1)` and parent the input version, complete the job with
the new version id, then issue the result signed URL and respond 200. -/
def enhanceSuccess (db : Db) (env : EnhanceEnv) (req : EnhanceReq)
    (photo : PhotoView) (inputVersion : VersionView) (job : EnhancementJobRow)
    (d : InlineData) (trace : List JobStatus) : EnhanceOutcome :=
  match env.enhancedUpload with
  | .error m => enhanceCatch db req.userId (some job) m trace
  | .ok _ =>
      let (db1, bucket, objectKey) :=
        uploadToStorage db req.userId d.data (inlineMime d) false
      let (db2, enhancedStorageObject) :=
        createStorageObject db1 req.userId bucket objectKey
          (calculateChecksum d.data) d.data.length (inlineMime d)
      let enhancedCount :=
        (photo.versions.filter (fun v => !v.row.is_original)).length
      let (db3, enhancedVersion) :=
        createPhotoVersion db2 req.userId req.photoId enhancedStorageObject.id
          false (some inputVersion.row.id)
          ("Enhanced v" ++ toString (enhancedCount + 1)) none
      match completeEnhancementJob db3 job.id req.userId enhancedVersion.id with
      | .error e => enhanceCatch db3 req.userId (some job) e.message trace
      | .ok (db4, _) =>
          let trace' := trace ++ [JobStatus.succeeded]
          match env.resultSignedUrl with
          | .error m => enhanceCatch db4 req.userId (some job) m trace'
          | .ok _ =>
              { db := db4, httpStatus := 200, bodyErr := none, trace := trace' }

/-- Input-version resolution of the enhance handler (`server.js` 195-205):
the version named by a truthy versionId, else the first version flagged
original. -/
def resolveInputVersion (photo : PhotoView) (versionId : Option Nat) :
    Option VersionView :=
  if match versionId with | some v => v != 0 | none => false then
    photo.versions.find? (fun v => v.row.id == versionId.getD 0)
  else
    photo.versions.find? (fun v => v.row.is_original)

/-- POST /api/photos/:photoId/enhance handler (`server.js` 181-372): load the
photo, resolve the input version (the one named by a truthy versionId, else
the first version flagged original), create and start the job, fetch the
input bytes through a signed URL, call the model, and either record the
failure or persist the enhanced version and complete the job. Any thrown
error lands in the catch block. -/
def enhanceHandler (db : Db) (env : EnhanceEnv) (req : EnhanceReq) :
    EnhanceOutcome :=
  match getPhoto db req.photoId req.userId with
  | .error e => enhanceCatch db req.userId none e.message []
  | .ok photo =>
      match resolveInputVersion photo req.versionId with
      | none =>
          { db := db, httpStatus := 400,
            bodyErr := some "Input version not found.", trace := [] }
      | some inputVersion =>
          let (db1, job) :=
            createEnhancementJob db req.userId req.photoId inputVersion.row.id
              "gemini" MODEL_ID (req.additionalInstructions.getD "")
          let trace1 := [JobStatus.queued]
          match startEnhancementJob db1 job.id req.userId with
          | .error e => enhanceCatch db1 req.userId (some job) e.message trace1
          | .ok (db2, _) =>
              let trace2 := trace1 ++ [JobStatus.running]
              match inputVersion.storage with
              | none =>
                  enhanceCatch db2 req.userId (some job)
                    "Cannot read properties of null (reading 'bucket')" trace2
              | some _st =>
                  match env.inputSignedUrl with
                  | .error m => enhanceCatch db2 req.userId (some job) m trace2
                  | .ok _url =>
                      match env.fetchImage with
                      | .error m => enhanceCatch db2 req.userId (some job) m trace2
                      | .ok _bytes =>
                          match env.gemini with
                          | .error m =>
                              enhanceCatch db2 req.userId (some job) m trace2
                          | .ok resp =>
                              match extractInline resp with
                              | none => enhanceNoImage db2 req job resp trace2
                              | some d =>
                                  if d.data = "" then
                                    enhanceNoImage db2 req job resp trace2
                                  else
                                    enhanceSuccess db2 env req photo
                                      inputVersion job d trace2

/-- Request to POST /api/save-to-library: multipart fields `original` and
`enhanced` plus the metadata body fields. -/
structure SaveReq where
  userId : String
  original : Option MFile
  enhanced : Option MFile
  title : Option String
  notes : Option String
  assignedDate : Option String
  folderId : Option Int
  additionalInstructions : Option String
deriving DecidableEq, Repr

/-- Outcome of POST /api/save-to-library. -/
structure SaveOutcome where
  db : Db
  httpStatus : Nat
  photoId : Option Nat
  jobId : Option Nat
deriving DecidableEq, Repr

/-- Javascript truthiness of an optional string. -/
def jsTruthyStr : Option String → Bool
  | some s => s != ""
  | none => false

/-- Javascript `x || null` on an optional string: an absent or empty string
becomes null. -/
def jsTrimOrNull : Option String → Option String
  | some s => if s = "" then none else some s
  | none => none

/-- Tail of POST /api/save-to-library (`server.js` 546-612) once the photo
row exists: create the original version, upload and register the enhanced
blob, create the enhanced version with label 'Enhanced v1' parented on the
original, create a synthetic job taken through queued, running and
succeeded, and a comment when notes were given. -/
def saveFinish (db4 : Db) (req : SaveReq) (enhancedFile : MFile)
    (photoId soId : Nat) (notes : Option String) : SaveOutcome :=
  let (db5, originalVersion) :=
    createPhotoVersion db4 req.userId photoId soId true none "Original" none
  let (db6, ebucket, eoKey) :=
    uploadToStorage db5 req.userId enhancedFile.buffer
      enhancedFile.mimetype false
  let (db7, enhancedStorageObject) :=
    createStorageObject db6 req.userId ebucket eoKey
      (calculateChecksum enhancedFile.buffer) enhancedFile.size
      enhancedFile.mimetype
  let (db8, enhancedVersion) :=
    createPhotoVersion db7 req.userId photoId enhancedStorageObject.id
      false (some originalVersion.id) "Enhanced v1" notes
  let (db9, job) :=
    createEnhancementJob db8 req.userId photoId originalVersion.id
      "gemini" MODEL_ID
      ((req.additionalInstructions.map String.trim).getD "")
  match startEnhancementJob db9 job.id req.userId with
  | .error _ =>
      { db := db9, httpStatus := 500, photoId := none, jobId := none }
  | .ok (db10, _) =>
      match completeEnhancementJob db10 job.id req.userId
          enhancedVersion.id with
      | .error _ =>
          { db := db10, httpStatus := 500, photoId := none, jobId := none }
      | .ok (db11, _) =>
          let db12 := match notes with
            | some body =>
                (createComment db11 req.userId photoId
                  (some enhancedVersion.id) body).1
            | none => db11
          { db := db12, httpStatus := 200,
            photoId := some photoId, jobId := some job.id }

/-- POST /api/save-to-library handler (`server.js` 494-612): require both
files, upload the original and the enhanced blobs, create the photo, its
original version with label 'Original', its enhanced version with label
'Enhanced v1' and parent the original, then a synthetic job taken through
queued, running and succeeded, and a comment when notes were given; any
thrown error yields 500. External writes are modelled on their success
path. -/
def saveToLibraryHandler (db : Db) (req : SaveReq) : SaveOutcome :=
  match req.original, req.enhanced with
  | some originalFile, some enhancedFile =>
      let title := jsOrStr (req.title.map String.trim) originalFile.originalname
      let notes := jsTrimOrNull (req.notes.map String.trim)
      let assignedDate := jsTrimOrNull req.assignedDate
      let (db1, obucket, ooKey) :=
        uploadToStorage db req.userId originalFile.buffer
          originalFile.mimetype true
      let (db2, originalStorageObject) :=
        createStorageObject db1 req.userId obucket ooKey
          (calculateChecksum originalFile.buffer) originalFile.size
          originalFile.mimetype
      let (db3, photo) :=
        createPhoto db2 req.userId req.folderId title notes assignedDate
      match (match assignedDate with
             | some d => updatePhoto db3 photo.id req.userId
                 (fun p => { p with assigned_date := some d })
             | none => .ok (db3, photo)) with
      | .error _ =>
          { db := db3, httpStatus := 500, photoId := none, jobId := none }
      | .ok (db4, _) =>
          saveFinish db4 req enhancedFile photo.id originalStorageObject.id
            notes
  | _, _ => { db := db, httpStatus := 400, photoId := none, jobId := none }

/-- GET /api/photos/:photoId handler (`server.js` 649-671): return the photo
with versions; on any thrown error — including getPhoto's PGRST116 when the
id does not exist, belongs to another user, or is soft-deleted — the catch
responds 500 'Failed to get photo.'. The handler's own `if (!photo)` 404
branch cannot fire, because `.single()` never resolves with a null row. -/
def getPhotoHandler (db : Db) (photoId : Nat) (userId : String) :
    Nat × Option PhotoView :=
  match getPhoto db photoId userId with
  | .ok p => (200, some p)
  | .error _ => (500, none)

/-- DELETE /api/photos/:photoId handler (`server.js` 693-701): soft-delete
and answer success, 500 on a thrown error. -/
def deletePhotoHandler (db : Db) (photoId : Nat) (userId : String) : Db × Nat :=
  match softDeletePhoto db photoId userId with
  | .ok (db', _) => (db', 200)
  | .error _ => (db, 500)

/-- The incoming multipart request as multer sees it before any filtering. -/
structure RawUpload where
  hasFile : Bool
  mimetype : String
  size : Nat
  buffer : String
  originalname : String
deriving DecidableEq, Repr

/-- An error reaching the express error-handling middleware: either a
MulterError with its code, or an ordinary Error with a message. -/
inductive ServerErr where
  | multerErr (code : String)
  | plainErr (message : String)
deriving DecidableEq, Repr

/-- multer `upload.single('image')` (`server.js` 37-51): the fileFilter
rejects mime types other than JPEG, PNG and WebP with an ordinary Error (not
a MulterError), and the 10 MB limit aborts with MulterError
LIMIT_FILE_SIZE; a request without a file passes through with no file. -/
def multerSingle (r : RawUpload) : Except ServerErr (Option MFile) :=
  if r.hasFile then
    if !(["image/jpeg", "image/png", "image/webp"].contains r.mimetype) then
      .error (.plainErr "Invalid file type. Only JPEG, PNG, and WebP are allowed.")
    else if r.size > 10 * 1024 * 1024 then
      .error (.multerErr "LIMIT_FILE_SIZE")
    else
      .ok (some { buffer := r.buffer, mimetype := r.mimetype, size := r.size,
                  originalname := r.originalname })
  else .ok none

/-- The error-handling middleware (`server.js` 893-901): 400 only for a
MulterError with code LIMIT_FILE_SIZE, otherwise the generic 500. -/
def errorMiddleware : ServerErr → Nat × String
  | .multerErr code =>
      if code = "LIMIT_FILE_SIZE" then
        (400, "File too large. Maximum size is 10MB.")
      else (500, "An unexpected error occurred.")
  | .plainErr _ => (500, "An unexpected error occurred.")

/-- HTTP status of POST /api/photos for a raw multipart request: multer runs
before the handler, a multer rejection goes to the error middleware, and
otherwise the handler (with its missing-file check) runs. -/
def uploadPipelineStatus (db : Db) (userId : String) (r : RawUpload) : Nat :=
  match multerSingle r with
  | .error e => (errorMiddleware e).1
  | .ok f =>
      (photosUploadHandler db
        { userId := userId, file := f, title := none, folderId := none }).httpStatus

/-- POST /api/photos/:photoId/tags/:tagId handler (`server.js` 828-836):
success when addTagToPhoto returns, 500 when it throws. -/
def addTagHandler (db : Db) (photoId tagId : Nat) : Db × Nat :=
  match addTagToPhoto db photoId tagId with
  | .ok db' => (db', 200)
  | .error _ => (db, 500)

/-- A folder as the library page receives it from GET /api/folders. -/
structure JsFolder where
  id : Int
  parent_id : Option Int
  name : String
deriving DecidableEq, Repr

/-- The assignment pass of `library.js` buildFolderTree (lines 280-286),
with node objects identified by their id: each folder's id is pushed onto
its parent's children list when `folder.parent_id && map[folder.parent_id]`
— so a null or 0 parent is falsy, and the parent must occur as an id
somewhere in the input — and onto the root list otherwise. Children are
returned as (parent id, child id) edges in push order; the whole input is
in scope for the map lookups while the second argument is the part still to
visit. -/
def assignPassAux (whole : List JsFolder) : List JsFolder → List (Int × Int) × List Int
  | [] => ([], [])
  | f :: rest =>
      let acc := assignPassAux whole rest
      match f.parent_id with
      | some p =>
          if p != 0 && (whole.find? (fun g => g.id == p)).isSome then
            ((p, f.id) :: acc.1, acc.2)
          else (acc.1, f.id :: acc.2)
      | none => (acc.1, f.id :: acc.2)

/-- Both passes of buildFolderTree: the children edges and the root ids. -/
def assignPass (l : List JsFolder) : List (Int × Int) × List Int :=
  assignPassAux l l

/-- A node of the materialized folder forest, carrying the folder id. -/
inductive FolderTree where
  | node (id : Int) (children : List FolderTree)

/-- Children ids of a node, in push order. -/
def childIds (edges : List (Int × Int)) (p : Int) : List Int :=
  (edges.filter (fun e => e.1 == p)).map (fun e => e.2)

/-- Unfold the children edges into trees, truncated at the given depth; on an
input with distinct ids whose parent chains are acyclic, depth `l.length`
reaches every node, so this is the object graph buildFolderTree returns. -/
def materialize (edges : List (Int × Int)) : Nat → Int → FolderTree
  | 0, i => .node i []
  | Nat.succ fuel, i =>
      .node i ((childIds edges i).map (fun c => materialize edges fuel c))

/-- `library.js` buildFolderTree (lines 270-289): map keyed by id, one
assignment pass, and the root list of node objects — materialized here to
input-length depth. -/
def buildFolderTree (l : List JsFolder) : List FolderTree :=
  let pass := assignPass l
  pass.2.map (fun r => materialize pass.1 l.length r)

mutual

/-- Occurrences of an id in one tree of the forest. -/
def treeCount (i : Int) : FolderTree → Nat
  | .node j cs => (if j == i then 1 else 0) + treeCountList i cs

/-- Occurrences of an id across a list of trees. -/
def treeCountList (i : Int) : List FolderTree → Nat
  | [] => 0
  | t :: ts => treeCount i t + treeCountList i ts

end

/-! Theorems -/

/-- C8: for every owner, getUserFolders called with parentId null returns
exactly that owner's non-soft-deleted folders whose parent_id is null — a
permutation of the filtered table — ordered by sort_order ascending and then
by name ascending. -/
theorem getUserFolders_root_spec (db : Db) (userId : String) :
    (getUserFolders db userId none).Perm
      (db.folders.filter
        (fun f => f.user_id == userId && f.deleted_at == none &&
          f.parent_id == none)) ∧
    List.Sorted folderLE (getUserFolders db userId none) := by
  constructor
  · unfold getUserFolders
    refine (List.perm_insertionSort _ _).trans ?_
    rw [List.filter_filter]
    have h : ∀ f ∈ db.folders,
        (f.parent_id == none && (f.user_id == userId && f.deleted_at == none))
          = (f.user_id == userId && f.deleted_at == none && f.parent_id == none) := by
      intro f _
      cases f.user_id == userId <;> cases f.deleted_at == none <;>
        cases f.parent_id == none <;> rfl
    rw [List.filter_congr h]
  · exact List.sorted_insertionSort folderLE _

/-- The empty database with the counter at zero. -/
def dbEmpty : Db :=
  { storage_objects := [], photos := [], photo_versions := [],
    enhancement_jobs := [], folders := [], tags := [], photo_tags := [],
    comments := [], tick := 0 }

/-- C10: addTagToPhoto is idempotent at its interface: adding a pair that is
already present succeeds without error and leaves the state unchanged, a
second identical add after any successful add changes nothing, and an insert
error other than the swallowed duplicate-key 23505 is propagated. -/
theorem addTagToPhoto_idempotent (db : Db) (photoId tagId : Nat) :
    ((photoId, tagId) ∈ db.photo_tags →
      addTagToPhoto db photoId tagId = .ok db) ∧
    (∀ db', addTagToPhoto db photoId tagId = .ok db' →
      addTagToPhoto db' photoId tagId = .ok db') ∧
    (∀ e, photoTagsInsert db photoId tagId = .error e →
      e ≠ .uniqueViolation → addTagToPhoto db photoId tagId = .error e) := by
  refine ⟨?_, ?_, ?_⟩
  · intro hmem
    simp [addTagToPhoto, photoTagsInsert, hmem]
  · intro db' h
    have hmem : (photoId, tagId) ∈ db'.photo_tags := by
      by_cases hdup : (photoId, tagId) ∈ db.photo_tags
      · simp only [addTagToPhoto, photoTagsInsert, if_pos hdup] at h
        simp only [reduceIte] at h
        cases h
        exact hdup
      · simp only [addTagToPhoto, photoTagsInsert, if_neg hdup] at h
        by_cases hfk : (db.photos.any (fun p => p.id == photoId) &&
            db.tags.any (fun t => t.id == tagId)) = true
        · rw [if_pos hfk] at h
          cases h
          simp
        · rw [if_neg hfk] at h
          simp only [reduceIte] at h
          cases h
    simp [addTagToPhoto, photoTagsInsert, hmem]
  · intro e he hne
    simp [addTagToPhoto, he, hne]

/-- A photo row owned by alice. -/
def photoAlice : PhotoRow :=
  { id := 1, user_id := "alice", folder_id := none, title := "cat.jpg",
    description := none, captured_date := none, assigned_date := none,
    favorite := false, created_at := 0, updated_at := 0, deleted_at := none }

/-- A tag row owned by alice. -/
def tagFamily : TagRow := { id := 2, user_id := "alice", name := "family" }

/-- A database carrying one photo and one tag, with the pair not yet
linked. -/
def dbTagW : Db := { dbEmpty with photos := [photoAlice], tags := [tagFamily], tick := 3 }

/-- The state after linking tag 2 to photo 1 in `dbTagW`. -/
def dbTagW2 : Db := { dbTagW with photo_tags := [(1, 2)] }

/-- Witness for the idempotence theorem: in a concrete state the first add
succeeds and the second add returns the first add's state unchanged. -/
theorem addTagToPhoto_idempotent_witness :
    addTagToPhoto dbTagW 1 2 = .ok dbTagW2 ∧
    addTagToPhoto dbTagW2 1 2 = .ok dbTagW2 := by
  refine ⟨rfl, ?_⟩
  exact (addTagToPhoto_idempotent dbTagW 1 2).2.1 dbTagW2 rfl

/-- A database whose only photo belongs to alice. -/
def dbAlice : Db := { dbEmpty with photos := [photoAlice], tick := 10 }

/-- C5: evaluating GET /api/photos/:photoId at a photo owned by a different
user: getPhoto's `.single()` raises PGRST116 (no row passes the owner
filter), the handler's `if (!photo)` 404 branch never sees a null photo, and
the catch block answers 500 — the same response as for an id that does not
exist at all, but not the 404 the specification states. -/
theorem getPhoto_cross_user_responds_500 :
    getPhoto dbAlice 1 "bob" = .error .noRows ∧
    (getPhotoHandler dbAlice 1 "bob").1 = 500 ∧
    getPhotoHandler dbAlice 1 "bob" = getPhotoHandler dbAlice 99 "bob" ∧
    (getPhotoHandler dbAlice 1 "bob").1 ≠ 404 := by
  refine ⟨rfl, rfl, rfl, by decide⟩

/-- C7: evaluating the POST /api/photos pipeline at the three validation
failures: a missing file and an oversized file answer 400, but a disallowed
mime type is rejected by the fileFilter with an ordinary Error that the
error middleware's `instanceof MulterError` test does not recognize, so it
answers 500, not the 400 the specification states. -/
theorem upload_validation_statuses :
    uploadPipelineStatus dbEmpty "u"
      { hasFile := false, mimetype := "", size := 0, buffer := "",
        originalname := "" } = 400 ∧
    uploadPipelineStatus dbEmpty "u"
      { hasFile := true, mimetype := "image/png", size := 10485761,
        buffer := "b", originalname := "big.png" } = 400 ∧
    uploadPipelineStatus dbEmpty "u"
      { hasFile := true, mimetype := "image/gif", size := 5, buffer := "b",
        originalname := "a.gif" } = 500 := by
  refine ⟨rfl, by decide, rfl⟩

/-- The condition under which the assignment pass attaches a folder to a
parent: `folder.parent_id && map[folder.parent_id]` — a non-null, nonzero
parent_id that occurs as an id in the input. -/
def codeResolvable (whole : List JsFolder) (f : JsFolder) : Bool :=
  match f.parent_id with
  | some p => p != 0 && (whole.find? (fun g => g.id == p)).isSome
  | none => false

/-- The root ids produced by the assignment pass are exactly the folders the
attachment condition rejects, in input order. -/
theorem assignPassAux_roots (whole : List JsFolder) :
    ∀ rest : List JsFolder,
      (assignPassAux whole rest).2 =
        (rest.filter (fun f => !codeResolvable whole f)).map (fun f => f.id)
  | [] => rfl
  | f :: rest => by
      have ih := assignPassAux_roots whole rest
      unfold assignPassAux codeResolvable
      cases hp : f.parent_id with
      | none => simp [ih, List.filter_cons, codeResolvable, hp]
      | some p =>
          by_cases hc : (p != 0 && (whole.find? (fun g => g.id == p)).isSome) = true
          · simp [ih, List.filter_cons, codeResolvable, hp, hc]
          · simp [ih, List.filter_cons, codeResolvable, hp,
              Bool.not_eq_true .. ▸ hc]

/-- The children list of any node id produced by the assignment pass is
exactly the folders attached to that parent, in input order. -/
theorem assignPassAux_children (whole : List JsFolder) (p : Int) :
    ∀ rest : List JsFolder,
      childIds (assignPassAux whole rest).1 p =
        (rest.filter
          (fun f => f.parent_id == some p && codeResolvable whole f)).map
          (fun f => f.id)
  | [] => rfl
  | f :: rest => by
      have ih := assignPassAux_children whole p rest
      unfold assignPassAux
      cases hp : f.parent_id with
      | none => simpa [childIds, List.filter_cons, codeResolvable, hp] using ih
      | some q =>
          by_cases hc : (q != 0 && (whole.find? (fun g => g.id == q)).isSome) = true
          · by_cases hq : q = p
            · subst hq
              simpa [childIds, List.filter_cons, codeResolvable, hp, hc] using ih
            · simpa [childIds, List.filter_cons, codeResolvable, hp, hc, hq] using ih
          · simpa [childIds, List.filter_cons, codeResolvable, hp, hc] using ih

/-- Every processed folder contributes exactly one push: the number of child
edges bearing its id plus its occurrences among the roots equals its number
of occurrences in the processed list. -/
theorem assignPassAux_once (whole : List JsFolder) (i : Int) :
    ∀ rest : List JsFolder,
      ((assignPassAux whole rest).1.filter (fun e => e.2 == i)).length +
        (assignPassAux whole rest).2.count i =
        (rest.filter (fun f => f.id == i)).length
  | [] => rfl
  | f :: rest => by
      have ih := assignPassAux_once whole i rest
      unfold assignPassAux
      cases hp : f.parent_id with
      | none =>
          by_cases hi : f.id = i <;>
            simp [List.filter_cons, List.count_cons, hi, ← ih] <;> omega
      | some q =>
          by_cases hc : (q != 0 && (whole.find? (fun g => g.id == q)).isSome) = true <;>
            by_cases hi : f.id = i <;>
              simp [List.filter_cons, List.count_cons, hi, hc, ← ih] <;> omega

/-- Counting folders with a given id equals counting that id among the
mapped ids. -/
theorem filter_id_length_eq_count (i : Int) :
    ∀ l : List JsFolder,
      (l.filter (fun g => g.id == i)).length = (l.map (fun g => g.id)).count i
  | [] => rfl
  | a :: as => by
      by_cases ha : a.id = i <;>
        simp [List.filter_cons, List.count_cons, ha,
          filter_id_length_eq_count i as]

/-- C9 (amended): with node identity given by folder id, buildFolderTree's
single pass assigns each folder to its parent's children list when its
parent_id is non-null, nonzero and resolvable in the id map, and to the root
set otherwise, preserving input order; when the input ids are distinct every
folder is pushed exactly once across the root set and all children lists.
The function is pure: the result depends only on the input list. -/
theorem buildFolderTree_assignment (l : List JsFolder) :
    ((assignPass l).2 =
      (l.filter (fun f => !codeResolvable l f)).map (fun f => f.id)) ∧
    (∀ p : Int, childIds (assignPass l).1 p =
      (l.filter
        (fun f => f.parent_id == some p && codeResolvable l f)).map
        (fun f => f.id)) ∧
    (∀ f ∈ l, (l.map (fun g => g.id)).Nodup →
      ((assignPass l).1.filter (fun e => e.2 == f.id)).length +
        (assignPass l).2.count f.id = 1) := by
  refine ⟨assignPassAux_roots l l, fun p => assignPassAux_children l p l, ?_⟩
  intro f hf hnd
  unfold assignPass
  rw [assignPassAux_once l f.id l]
  rw [filter_id_length_eq_count f.id l]
  exact List.count_eq_one_of_mem hnd (List.mem_map_of_mem _ hf)

/-- A two-folder input for the assignment theorem's witness. -/
def twoFolders : List JsFolder :=
  [{ id := 1, parent_id := none, name := "a" },
   { id := 2, parent_id := some 1, name := "b" }]

/-- Witness: on a concrete two-folder list, folder 2 hangs under folder 1,
folder 1 is the only root, and each is pushed exactly once. -/
theorem buildFolderTree_assignment_witness :
    (twoFolders.head?.map (fun f => f.id) = some 1 ∧
      (twoFolders.map (fun g => g.id)).Nodup) ∧
    ((assignPass twoFolders).1.filter
        (fun e => e.2 == (1 : Int))).length +
      (assignPass twoFolders).2.count 1 = 1 := by
  refine ⟨⟨rfl, by decide⟩, ?_⟩
  exact (buildFolderTree_assignment twoFolders).2.2
    { id := 1, parent_id := none, name := "a" } (by decide) (by decide)

/-- A two-folder cycle: each names the other as parent. -/
def cycFolders : List JsFolder :=
  [{ id := 1, parent_id := some 2, name := "a" },
   { id := 2, parent_id := some 1, name := "b" }]

/-- C9 counterexample: on a cyclic parent chain both parents resolve in the
map, so neither folder reaches the root set and buildFolderTree returns the
empty forest — folder 1 is an input folder appearing zero times in the
resulting forest, not exactly once. -/
theorem buildFolderTree_cycle_counterexample :
    (∃ f ∈ cycFolders, f.id = 1) ∧
    buildFolderTree cycFolders = [] ∧
    treeCountList 1 (buildFolderTree cycFolders) = 0 := by
  exact ⟨⟨{ id := 1, parent_id := some 2, name := "a" }, by decide, rfl⟩, rfl, rfl⟩

/-- Every item a photo list query returns belongs to the requesting user and
is not soft-deleted. -/
theorem getUserPhotos_mem (db : Db) (userId : String)
    (sel : Option (Option Int)) (lim off : Nat) (fav : Bool)
    (item : PhotoListItem)
    (h : item ∈ (getUserPhotos db userId sel lim off fav).1) :
    item.row ∈ db.photos ∧ item.row.user_id = userId ∧
      item.row.deleted_at = none := by
  rcases sel with _ | (_ | fid) <;> cases fav <;>
    · unfold getUserPhotos at h
      obtain ⟨p0, hp0, hitem⟩ := List.mem_map.1 h
      have h2 := List.drop_subset _ _ (List.take_subset _ _ hp0)
      rw [List.mem_insertionSort] at h2
      have h3 : p0 ∈ db.photos ∧ p0.user_id = userId ∧
          p0.deleted_at = none := by
        simp at h2
        tauto
      subst hitem
      exact ⟨h3.1, h3.2.1, h3.2.2⟩

/-- C6 (amended): after DELETE /api/photos/:photoId the photo's row is kept
with deleted_at set (not removed), it appears in no getUserPhotos result for
the owner, and its versions remain retrievable through getPhotoVersions; but
the direct id lookup getPhoto excludes it as well — getPhoto filters
deleted_at null and its `.single()` errors — so the soft-deleted photo is
not retrievable via getPhoto. -/
theorem softDeletePhoto_spec (db : Db) (photoId : Nat) (userId : String)
    (p : PhotoRow)
    (hhit : db.photos.filter
      (fun q => q.id == photoId && q.user_id == userId) = [p]) :
    ∃ db' p', softDeletePhoto db photoId userId = .ok (db', p') ∧
      p' ∈ db'.photos ∧ p'.id = p.id ∧ p'.deleted_at = some db.tick ∧
      db'.photos.length = db.photos.length ∧
      (∀ sel lim off fav,
        ∀ item ∈ (getUserPhotos db' userId sel lim off fav).1,
          item.row.id ≠ photoId) ∧
      getPhotoVersions db' photoId userId =
        getPhotoVersions db photoId userId ∧
      getPhoto db' photoId userId = .error .noRows := by
  have hp_filter : p ∈ db.photos.filter
      (fun q => q.id == photoId && q.user_id == userId) := by
    rw [hhit]; exact List.mem_singleton_self p
  have hp_mem : p ∈ db.photos := List.mem_of_mem_filter hp_filter
  have hp_pred : (p.id == photoId && p.user_id == userId) = true :=
    (List.mem_filter.1 hp_filter).2
  rw [Bool.and_eq_true, beq_iff_eq, beq_iff_eq] at hp_pred
  unfold softDeletePhoto updatePhoto
  rw [hhit]
  refine ⟨_, _, rfl, ?_, rfl, rfl, List.length_map .., ?_, rfl, ?_⟩
  · -- the transformed row is in the mapped table
    refine List.mem_map.2 ⟨p, hp_mem, ?_⟩
    rw [if_pos]
    rw [Bool.and_eq_true, beq_iff_eq, beq_iff_eq]
    exact hp_pred
  · -- absent from every list query of the owner
    intro sel lim off fav item hit heq
    obtain ⟨hmem, huser, hdel⟩ := getUserPhotos_mem _ _ _ _ _ _ _ hit
    obtain ⟨q, hq, hgq⟩ := List.mem_map.1 hmem
    by_cases hcond : (q.id == photoId && q.user_id == userId) = true
    · rw [if_pos hcond] at hgq
      rw [← hgq] at hdel
      simp at hdel
    · rw [if_neg hcond] at hgq
      rw [Bool.and_eq_true, beq_iff_eq, beq_iff_eq] at hcond
      exact hcond ⟨by rw [hgq]; exact heq, by rw [hgq]; exact huser⟩
  · -- getPhoto now finds no row
    unfold getPhoto
    rw [List.find?_eq_none.2]
    intro x hx
    obtain ⟨q, hq, hgq⟩ := List.mem_map.1 hx
    by_cases hcond : (q.id == photoId && q.user_id == userId) = true
    · rw [if_pos hcond] at hgq
      rw [← hgq]
      simp
    · rw [if_neg hcond] at hgq
      rw [Bool.and_eq_true, beq_iff_eq, beq_iff_eq] at hcond
      rw [← hgq]
      intro hpred
      rw [Bool.and_eq_true, Bool.and_eq_true, beq_iff_eq, beq_iff_eq] at hpred
      exact hcond ⟨hpred.1.1, hpred.1.2⟩

/-- alice's storage object for the fixture photo. -/
def soAlice : StorageObjectRow :=
  { id := 3, user_id := "alice", bucket := "photos",
    object_key := "alice/originals/0.jpeg", checksum_sha256 := "sha256:b",
    bytes := 4, mime_type := "image/jpeg" }

/-- alice's original version row for the fixture photo. -/
def verAlice : PhotoVersionRow :=
  { id := 2, user_id := "alice", photo_id := 1, storage_object_id := 3,
    is_original := true, parent_version_id := none, label := "Original",
    notes := none, created_at := 0, deleted_at := none }

/-- A database with alice's photo, its original version and storage. -/
def dbCat : Db :=
  { dbEmpty with
      photos := [photoAlice], photo_versions := [verAlice],
      storage_objects := [soAlice], tick := 10 }

/-- C6 counterexample: soft-deleting alice's photo keeps the row with
deleted_at stamped and keeps the versions retrievable, yet getPhoto — the
direct id lookup the claim names — answers not-found instead of returning
the row with deletedAt set. -/
theorem softDelete_getPhoto_counterexample :
    ∃ r, softDeletePhoto dbCat 1 "alice" = .ok r ∧
      getPhoto r.1 1 "alice" = .error .noRows ∧
      r.1.photos.map (fun q => q.deleted_at) = [some 10] ∧
      getPhotoVersions r.1 1 "alice" = getPhotoVersions dbCat 1 "alice" := by
  refine ⟨_, rfl, rfl, rfl, rfl⟩

/-- Witness for the soft-delete theorem at the fixture database. -/
theorem softDeletePhoto_spec_witness :
    dbCat.photos.filter
      (fun q => q.id == 1 && q.user_id == "alice") = [photoAlice] ∧
    ∃ db' p', softDeletePhoto dbCat 1 "alice" = .ok (db', p') ∧
      p' ∈ db'.photos ∧ p'.id = photoAlice.id ∧
      p'.deleted_at = some dbCat.tick ∧
      db'.photos.length = dbCat.photos.length ∧
      (∀ sel lim off fav,
        ∀ item ∈ (getUserPhotos db' "alice" sel lim off fav).1,
          item.row.id ≠ 1) ∧
      getPhotoVersions db' 1 "alice" = getPhotoVersions dbCat 1 "alice" ∧
      getPhoto db' 1 "alice" = .error .noRows :=
  ⟨rfl, softDeletePhoto_spec dbCat 1 "alice" photoAlice rfl⟩

/-- A successful job update only rewrites the jobs table (and the tick):
photos, versions and storage objects are untouched. -/
theorem updateEnhancementJob_ok (db : Db) (jobId : Nat) (userId : String)
    (f : EnhancementJobRow → EnhancementJobRow) (d : Db) (r : EnhancementJobRow)
    (h : updateEnhancementJob db jobId userId f = .ok (d, r)) :
    d.photo_versions = db.photo_versions ∧
    d.storage_objects = db.storage_objects ∧
    d.photos = db.photos := by
  unfold updateEnhancementJob at h
  split at h
  · cases h
    exact ⟨rfl, rfl, rfl⟩
  · cases h

/-- A job update fails independently of the update fields: if one update on a
state errors, any update of the same job on that state errors. -/
theorem updateEnhancementJob_error (db : Db) (jobId : Nat) (userId : String)
    (f g : EnhancementJobRow → EnhancementJobRow) (e : DbErr)
    (h : updateEnhancementJob db jobId userId f = .error e) :
    updateEnhancementJob db jobId userId g = .error .noRows := by
  unfold updateEnhancementJob at h ⊢
  split at h
  · cases h
  · rfl

/-- Updating the freshly appended job of a state: the filter hits exactly the
appended row, older jobs are left unchanged, and the update returns the
transformed row. -/
theorem updateEnhancementJob_append (db : Db) (js : List EnhancementJobRow)
    (j : EnhancementJobRow) (f : EnhancementJobRow → EnhancementJobRow)
    (hjobs : db.enhancement_jobs = js ++ [j])
    (hfresh : ∀ k ∈ js, (k.id == j.id && k.user_id == j.user_id) = false) :
    updateEnhancementJob db j.id j.user_id f =
      .ok ({ db with enhancement_jobs := js ++ [f j], tick := db.tick + 1 },
        f j) := by
  unfold updateEnhancementJob
  rw [hjobs, List.filter_append]
  have h1 : js.filter (fun k => k.id == j.id && k.user_id == j.user_id) = [] := by
    rw [List.filter_eq_nil_iff]
    intro k hk
    rw [hfresh k hk]
    exact Bool.false_ne_true
  have h2 : [j].filter (fun k => k.id == j.id && k.user_id == j.user_id) = [j] := by
    simp
  rw [h1, h2, List.nil_append]
  have h3 : (js ++ [j]).map
      (fun k => if k.id == j.id && k.user_id == j.user_id then f k else k) =
      js ++ [f j] := by
    rw [List.map_append]
    congr 1
    · calc js.map (fun k => if k.id == j.id && k.user_id == j.user_id then f k else k)
          = js.map id := by
            apply List.map_congr_left
            intro k hk
            rw [hfresh k hk]
            rfl
        _ = js := List.map_id js
    · simp
  rw [h3]

/-- The catch block's outcome carries exactly the state and trace of its
compensating-write step, whatever the response status is. -/
theorem enhanceCatch_db_trace (db : Db) (u : String)
    (job : Option EnhancementJobRow) (msg : String) (tr : List JobStatus) :
    (enhanceCatch db u job msg tr).db = (enhanceCatchStep db u job msg tr).1 ∧
    (enhanceCatch db u job msg tr).trace = (enhanceCatchStep db u job msg tr).2 := by
  unfold enhanceCatch
  dsimp only
  split
  · exact ⟨rfl, rfl⟩
  · split
    · exact ⟨rfl, rfl⟩
    · exact ⟨rfl, rfl⟩

/-- The compensating write touches only the jobs table. -/
theorem enhanceCatchStep_state (db : Db) (u : String)
    (job : Option EnhancementJobRow) (msg : String) (tr : List JobStatus) :
    (enhanceCatchStep db u job msg tr).1.photo_versions = db.photo_versions ∧
    (enhanceCatchStep db u job msg tr).1.storage_objects = db.storage_objects ∧
    (enhanceCatchStep db u job msg tr).1.photos = db.photos := by
  unfold enhanceCatchStep
  rcases job with _ | j
  · exact ⟨rfl, rfl, rfl⟩
  · dsimp only
    cases hf : failEnhancementJob db j.id u msg with
    | ok x =>
        unfold failEnhancementJob at hf
        exact updateEnhancementJob_ok db j.id u _ x.1 x.2
          (by rw [hf])
    | error e => exact ⟨rfl, rfl, rfl⟩

/-- The compensating write either appends one failed entry to the trace or
leaves it unchanged. -/
theorem enhanceCatchStep_trace (db : Db) (u : String)
    (job : Option EnhancementJobRow) (msg : String) (tr : List JobStatus) :
    (enhanceCatchStep db u job msg tr).2 = tr ∨
    (enhanceCatchStep db u job msg tr).2 = tr ++ [JobStatus.failed] := by
  unfold enhanceCatchStep
  rcases job with _ | j
  · exact Or.inl rfl
  · dsimp only
    cases hf : failEnhancementJob db j.id u msg with
    | ok x => exact Or.inr rfl
    | error e => exact Or.inl rfl

/-- The no-image branch on a state whose last job row is the handler's job:
the job is marked failed with the model's explanatory text or 'No image
returned', nothing else changes, and the response is 422 with the text or
the generic message. -/
theorem enhanceNoImage_spec (db : Db) (req : EnhanceReq)
    (job : EnhancementJobRow) (resp : GeminiResponse) (tr : List JobStatus)
    (js : List EnhancementJobRow) (j1 : EnhancementJobRow)
    (hjobs : db.enhancement_jobs = js ++ [j1]) (hid : j1.id = job.id)
    (huser : j1.user_id = req.userId)
    (hfresh : ∀ k ∈ js, (k.id == j1.id && k.user_id == j1.user_id) = false) :
    enhanceNoImage db req job resp tr =
      { db := { db with
          enhancement_jobs := js ++ [{ j1 with
            status := .failed,
            error_message := some
              (if extractErrorText (resp.candidates.getD []) = ""
                then "No image returned"
                else extractErrorText (resp.candidates.getD [])),
            finished_at := some db.tick }],
          tick := db.tick + 1 },
        httpStatus := 422,
        bodyErr := some
          (if extractErrorText (resp.candidates.getD []) = ""
            then "Unable to process image. Please try a different photo."
            else extractErrorText (resp.candidates.getD [])),
        trace := tr ++ [JobStatus.failed] } := by
  unfold enhanceNoImage failEnhancementJob
  rw [← hid, ← huser]
  simp only [updateEnhancementJob_append db js j1 _ hjobs hfresh]

/-- Variant of the fresh-job update equation keyed on the id and user values,
usable as a rewrite whose side conditions name the appended row. -/
theorem updateEnhancementJob_append2 (db : Db) (jid : Nat) (uid : String)
    (f : EnhancementJobRow → EnhancementJobRow) (js : List EnhancementJobRow)
    (j : EnhancementJobRow)
    (hjobs : db.enhancement_jobs = js ++ [j]) (hid : j.id = jid)
    (huser : j.user_id = uid)
    (hfresh : ∀ k ∈ js, (k.id == jid && k.user_id == uid) = false) :
    updateEnhancementJob db jid uid f =
      .ok ({ db with enhancement_jobs := js ++ [f j], tick := db.tick + 1 },
        f j) := by
  subst hid
  subst huser
  exact updateEnhancementJob_append db js j f hjobs hfresh

/-- A fresh-job update cannot error. -/
theorem updateEnhancementJob_append_ne_error (db : Db) (jid : Nat)
    (uid : String) (f : EnhancementJobRow → EnhancementJobRow) (e : DbErr)
    (heq : updateEnhancementJob db jid uid f = .error e)
    (js : List EnhancementJobRow) (j : EnhancementJobRow)
    (hjobs : db.enhancement_jobs = js ++ [j]) (hid : j.id = jid)
    (huser : j.user_id = uid)
    (hfresh : ∀ k ∈ js, (k.id == jid && k.user_id == uid) = false) : False := by
  rw [updateEnhancementJob_append2 db jid uid f js j hjobs hid huser hfresh] at heq
  cases heq

/-- A fresh-job update returns exactly the appended transformed row. -/
theorem updateEnhancementJob_append_ok (db : Db) (jid : Nat) (uid : String)
    (f : EnhancementJobRow → EnhancementJobRow) (d : Db) (r : EnhancementJobRow)
    (heq : updateEnhancementJob db jid uid f = .ok (d, r))
    (js : List EnhancementJobRow) (j : EnhancementJobRow)
    (hjobs : db.enhancement_jobs = js ++ [j]) (hid : j.id = jid)
    (huser : j.user_id = uid)
    (hfresh : ∀ k ∈ js, (k.id == jid && k.user_id == uid) = false) :
    d = { db with enhancement_jobs := js ++ [f j], tick := db.tick + 1 } ∧
    r = f j := by
  rw [updateEnhancementJob_append2 db jid uid f js j hjobs hid huser hfresh] at heq
  cases heq
  exact ⟨rfl, rfl⟩

/-- C4: a successful enhance request with no versionId in the body takes the
photo's original version as input and creates exactly one new PhotoVersion —
non-original, parented on the input version, labelled 'Enhanced vN' for N =
prior non-original count + 1 — and the job ends succeeded with
outputVersionId the new version's id, after writing queued, running,
succeeded. -/
theorem enhance_default_input_success (db : Db) (env : EnhanceEnv)
    (req : EnhanceReq) (photo : PhotoView) (iv : VersionView)
    (st : StorageObjectRow) (u1 bs u2 : String) (resp : GeminiResponse)
    (d : InlineData)
    (hfresh : ∀ k ∈ db.enhancement_jobs, k.id < db.tick)
    (hphoto : getPhoto db req.photoId req.userId = .ok photo)
    (hvid : req.versionId = none)
    (hfind : photo.versions.find? (fun v => v.row.is_original) = some iv)
    (hst : iv.storage = some st)
    (h1 : env.inputSignedUrl = .ok u1) (h2 : env.fetchImage = .ok bs)
    (h3 : env.gemini = .ok resp) (himg : extractInline resp = some d)
    (hd : ¬d.data = "") (hup : env.enhancedUpload = .ok ())
    (hurl : env.resultSignedUrl = .ok u2) :
    (enhanceHandler db env req).httpStatus = 200 ∧
    (∃ ev : PhotoVersionRow, ∃ jb : EnhancementJobRow,
      (enhanceHandler db env req).db.photo_versions =
        db.photo_versions ++ [ev] ∧
      ev.is_original = false ∧
      ev.parent_version_id = some iv.row.id ∧
      ev.photo_id = req.photoId ∧
      ev.label = "Enhanced v" ++ toString
        ((photo.versions.filter (fun v => !v.row.is_original)).length + 1) ∧
      (enhanceHandler db env req).db.enhancement_jobs =
        db.enhancement_jobs ++ [jb] ∧
      jb.status = .succeeded ∧
      jb.output_version_id = some ev.id ∧
      jb.input_version_id = iv.row.id ∧
      jb.photo_id = req.photoId) ∧
    (enhanceHandler db env req).trace =
      [JobStatus.queued, JobStatus.running, JobStatus.succeeded] := by
  have hfr : ∀ k ∈ db.enhancement_jobs,
      (k.id == db.tick && k.user_id == req.userId) = false := by
    intro k hk
    have hne : (k.id == db.tick) = false := by
      simp [Nat.ne_of_lt (hfresh k hk)]
    rw [hne, Bool.false_and]
  simp only [enhanceHandler, hphoto, resolveInputVersion, hvid,
    Bool.false_eq_true, if_false, hfind, createEnhancementJob,
    startEnhancementJob, hst, h1, h2, h3, himg, hd, enhanceSuccess, hup,
    uploadToStorage, createStorageObject, createPhotoVersion,
    completeEnhancementJob, hurl]
  split
  · rename_i e heq
    exact (updateEnhancementJob_append_ne_error _ _ _ _ _ heq
      db.enhancement_jobs _ rfl rfl rfl hfr).elim
  · rename_i db2 snd heq
    obtain ⟨rfl, rfl⟩ := updateEnhancementJob_append_ok _ _ _ _ _ _ heq
      db.enhancement_jobs _ rfl rfl rfl hfr
    split
    · rename_i e heq2
      exact (updateEnhancementJob_append_ne_error _ _ _ _ _ heq2
        db.enhancement_jobs _ rfl rfl rfl hfr).elim
    · rename_i db6 snd2 heq2
      obtain ⟨rfl, rfl⟩ := updateEnhancementJob_append_ok _ _ _ _ _ _ heq2
        db.enhancement_jobs _ rfl rfl rfl hfr
      exact ⟨rfl, ⟨_, _, rfl, rfl, rfl, rfl, rfl, rfl, rfl, rfl, rfl, rfl⟩, rfl⟩

/-- The version view of alice's original. -/
def ivCat : VersionView := { row := verAlice, storage := some soAlice }

/-- The photo view getPhoto returns for alice's fixture photo. -/
def photoViewCat : PhotoView :=
  { row := photoAlice, versions := [ivCat], jobs := [] }

/-- An enhance request for the fixture photo with no versionId. -/
def reqCat : EnhanceReq :=
  { userId := "alice", photoId := 1, additionalInstructions := none,
    versionId := none }

/-- A part carrying an inline image. -/
def imgPart : GeminiPart :=
  { inlineData := some { data := "IMG", mimeType := some "image/png" },
    text := none }

/-- A model response carrying one inline image. -/
def respImg : GeminiResponse :=
  { candidates := some [{ parts := some [imgPart] }], parts := none }

/-- An environment where every external call succeeds. -/
def envOk : EnhanceEnv :=
  { inputSignedUrl := .ok "su", fetchImage := .ok "bytes",
    gemini := .ok respImg, enhancedUpload := .ok (),
    resultSignedUrl := .ok "su2" }

/-- Witness: enhancing the fixture photo with no versionId creates one
non-original version labelled 'Enhanced v1' parented on the original, and
the job succeeds pointing at it. -/
theorem enhance_default_input_success_witness :
    (enhanceHandler dbCat envOk reqCat).httpStatus = 200 ∧
    (∃ ev : PhotoVersionRow, ∃ jb : EnhancementJobRow,
      (enhanceHandler dbCat envOk reqCat).db.photo_versions =
        dbCat.photo_versions ++ [ev] ∧
      ev.is_original = false ∧
      ev.parent_version_id = some ivCat.row.id ∧
      ev.photo_id = reqCat.photoId ∧
      ev.label = "Enhanced v" ++ toString
        ((photoViewCat.versions.filter (fun v => !v.row.is_original)).length + 1) ∧
      (enhanceHandler dbCat envOk reqCat).db.enhancement_jobs =
        dbCat.enhancement_jobs ++ [jb] ∧
      jb.status = .succeeded ∧
      jb.output_version_id = some ev.id ∧
      jb.input_version_id = ivCat.row.id ∧
      jb.photo_id = reqCat.photoId) ∧
    (enhanceHandler dbCat envOk reqCat).trace =
      [JobStatus.queued, JobStatus.running, JobStatus.succeeded] :=
  enhance_default_input_success dbCat envOk reqCat photoViewCat ivCat soAlice
    "su" "bytes" "su2" respImg { data := "IMG", mimeType := some "image/png" }
    (fun k hk => absurd hk (List.not_mem_nil k)) rfl rfl rfl rfl rfl rfl rfl
    (by decide) (by decide) rfl rfl

/-- C3: an enhance request where the model returns no image marks the job
failed with the model's explanatory text or 'No image returned', creates no
PhotoVersion and no StorageObject, and responds 422. -/
theorem enhance_no_image_spec (db : Db) (env : EnhanceEnv) (req : EnhanceReq)
    (photo : PhotoView) (iv : VersionView) (st : StorageObjectRow)
    (u1 bs : String) (resp : GeminiResponse)
    (hfresh : ∀ k ∈ db.enhancement_jobs, k.id < db.tick)
    (hphoto : getPhoto db req.photoId req.userId = .ok photo)
    (hres : resolveInputVersion photo req.versionId = some iv)
    (hst : iv.storage = some st)
    (h1 : env.inputSignedUrl = .ok u1) (h2 : env.fetchImage = .ok bs)
    (h3 : env.gemini = .ok resp)
    (himg : inlineTruthy (extractInline resp) = false) :
    (enhanceHandler db env req).httpStatus = 422 ∧
    (enhanceHandler db env req).db.photo_versions = db.photo_versions ∧
    (enhanceHandler db env req).db.storage_objects = db.storage_objects ∧
    (∃ jb : EnhancementJobRow,
      (enhanceHandler db env req).db.enhancement_jobs =
        db.enhancement_jobs ++ [jb] ∧
      jb.status = .failed ∧
      jb.error_message = some
        (if extractErrorText (resp.candidates.getD []) = ""
          then "No image returned"
          else extractErrorText (resp.candidates.getD [])) ∧
      jb.output_version_id = none) ∧
    (enhanceHandler db env req).trace =
      [JobStatus.queued, JobStatus.running, JobStatus.failed] := by
  have hfr : ∀ k ∈ db.enhancement_jobs,
      (k.id == db.tick && k.user_id == req.userId) = false := by
    intro k hk
    have hne : (k.id == db.tick) = false := by
      simp [Nat.ne_of_lt (hfresh k hk)]
    rw [hne, Bool.false_and]
  simp only [enhanceHandler, hphoto, hres, createEnhancementJob,
    startEnhancementJob, hst, h1, h2, h3]
  split
  · rename_i e heq
    exact (updateEnhancementJob_append_ne_error _ _ _ _ _ heq
      db.enhancement_jobs _ rfl rfl rfl hfr).elim
  · rename_i db2 snd heq
    obtain ⟨rfl, rfl⟩ := updateEnhancementJob_append_ok _ _ _ _ _ _ heq
      db.enhancement_jobs _ rfl rfl rfl hfr
    cases hcase : extractInline resp with
    | none =>
        simp only [hcase, enhanceNoImage, failEnhancementJob]
        split
        · rename_i db7 snd2 heq2
          obtain ⟨rfl, rfl⟩ := updateEnhancementJob_append_ok _ _ _ _ _ _ heq2
            db.enhancement_jobs _ rfl rfl rfl hfr
          exact ⟨rfl, rfl, rfl, ⟨_, rfl, rfl, rfl, rfl⟩, rfl⟩
        · rename_i e2 heq2
          exact (updateEnhancementJob_append_ne_error _ _ _ _ _ heq2
            db.enhancement_jobs _ rfl rfl rfl hfr).elim
    | some d =>
        have hdd : d.data = "" := by
          rw [hcase] at himg
          simpa [inlineTruthy] using himg
        simp only [hcase, hdd, reduceIte, enhanceNoImage, failEnhancementJob]
        split
        · rename_i db7 snd2 heq2
          obtain ⟨rfl, rfl⟩ := updateEnhancementJob_append_ok _ _ _ _ _ _ heq2
            db.enhancement_jobs _ rfl rfl rfl hfr
          exact ⟨rfl, rfl, rfl, ⟨_, rfl, rfl, rfl, rfl⟩, rfl⟩
        · rename_i e2 heq2
          exact (updateEnhancementJob_append_ne_error _ _ _ _ _ heq2
            db.enhancement_jobs _ rfl rfl rfl hfr).elim

/-- A part carrying only a safety-refusal text. -/
def refusalPart : GeminiPart :=
  { inlineData := none, text := some "I cannot restore this image." }

/-- A model response carrying only a safety-refusal text. -/
def respRefusal : GeminiResponse :=
  { candidates := some [{ parts := some [refusalPart] }], parts := none }

/-- An environment where the model answers with the refusal text. -/
def envRefusal : EnhanceEnv :=
  { inputSignedUrl := .ok "su", fetchImage := .ok "bytes",
    gemini := .ok respRefusal, enhancedUpload := .ok (),
    resultSignedUrl := .ok "su2" }

/-- Witness: a refusal response on the fixture photo yields 422, no new
version or storage object, and a failed job carrying the refusal text. -/
theorem enhance_no_image_spec_witness :
    (enhanceHandler dbCat envRefusal reqCat).httpStatus = 422 ∧
    (enhanceHandler dbCat envRefusal reqCat).db.photo_versions =
      dbCat.photo_versions ∧
    (enhanceHandler dbCat envRefusal reqCat).db.storage_objects =
      dbCat.storage_objects ∧
    (∃ jb : EnhancementJobRow,
      (enhanceHandler dbCat envRefusal reqCat).db.enhancement_jobs =
        dbCat.enhancement_jobs ++ [jb] ∧
      jb.status = .failed ∧
      jb.error_message = some
        (if extractErrorText (respRefusal.candidates.getD []) = ""
          then "No image returned"
          else extractErrorText (respRefusal.candidates.getD [])) ∧
      jb.output_version_id = none) ∧
    (enhanceHandler dbCat envRefusal reqCat).trace =
      [JobStatus.queued, JobStatus.running, JobStatus.failed] :=
  enhance_no_image_spec dbCat envRefusal reqCat photoViewCat ivCat soAlice
    "su" "bytes" respRefusal
    (fun k hk => absurd hk (List.not_mem_nil k)) rfl rfl rfl rfl rfl rfl
    (by decide)

/-- No stored version references an id at or above the tick counter. -/
theorem versions_filter_nil (db : Db) (pid : Nat)
    (h : ∀ v ∈ db.photo_versions, v.photo_id < db.tick)
    (hle : db.tick ≤ pid) :
    db.photo_versions.filter (fun w => w.photo_id == pid) = [] := by
  rw [List.filter_eq_nil_iff]
  intro v hv
  simp [Nat.ne_of_lt (Nat.lt_of_lt_of_le (h v hv) hle)]

/-- No stored job matches an id at or above the tick counter. -/
theorem jobs_fresh_beq (db : Db) (uid : String) (jid : Nat)
    (h : ∀ k ∈ db.enhancement_jobs, k.id < db.tick) (hle : db.tick ≤ jid) :
    ∀ k ∈ db.enhancement_jobs, (k.id == jid && k.user_id == uid) = false := by
  intro k hk
  have hne : (k.id == jid) = false := by
    simp [Nat.ne_of_lt (Nat.lt_of_lt_of_le (h k hk) hle)]
  rw [hne, Bool.false_and]

/-- Updating the freshly appended photo of a state: the filter hits exactly
the appended row, older photos are left unchanged, and the update returns
the transformed row with updated_at stamped. -/
theorem updatePhoto_append2 (db : Db) (pid : Nat) (uid : String)
    (f : PhotoRow → PhotoRow) (ps : List PhotoRow) (q : PhotoRow)
    (hps : db.photos = ps ++ [q]) (hid : q.id = pid) (huser : q.user_id = uid)
    (hfr : ∀ r ∈ ps, (r.id == pid && r.user_id == uid) = false) :
    updatePhoto db pid uid f =
      .ok ({ db with
              photos := ps ++ [{ f q with updated_at := db.tick }],
              tick := db.tick + 1 },
        { f q with updated_at := db.tick }) := by
  subst hid
  subst huser
  unfold updatePhoto
  rw [hps, List.filter_append]
  have h1 : ps.filter (fun r => r.id == q.id && r.user_id == q.user_id) = [] := by
    rw [List.filter_eq_nil_iff]
    intro r hr
    rw [hfr r hr]
    exact Bool.false_ne_true
  have h2 : [q].filter (fun r => r.id == q.id && r.user_id == q.user_id) = [q] := by
    simp
  rw [h1, h2, List.nil_append]
  have h3 : (ps ++ [q]).map
      (fun r => if r.id == q.id && r.user_id == q.user_id then
        { f r with updated_at := db.tick } else r) =
      ps ++ [{ f q with updated_at := db.tick }] := by
    rw [List.map_append]
    congr 1
    · calc ps.map (fun r => if r.id == q.id && r.user_id == q.user_id then
            { f r with updated_at := db.tick } else r)
          = ps.map id := by
            apply List.map_congr_left
            intro r hr
            rw [hfr r hr]
            rfl
        _ = ps := List.map_id ps
    · simp
  rw [h3]

/-- A fresh-photo update cannot error. -/
theorem updatePhoto_append_ne_error (db : Db) (pid : Nat) (uid : String)
    (f : PhotoRow → PhotoRow) (e : DbErr)
    (heq : updatePhoto db pid uid f = .error e)
    (ps : List PhotoRow) (q : PhotoRow)
    (hps : db.photos = ps ++ [q]) (hid : q.id = pid) (huser : q.user_id = uid)
    (hfr : ∀ r ∈ ps, (r.id == pid && r.user_id == uid) = false) : False := by
  rw [updatePhoto_append2 db pid uid f ps q hps hid huser hfr] at heq
  cases heq

/-- A fresh-photo update returns exactly the transformed row and state. -/
theorem updatePhoto_append_ok (db : Db) (pid : Nat) (uid : String)
    (f : PhotoRow → PhotoRow) (d : Db) (r : PhotoRow)
    (heq : updatePhoto db pid uid f = .ok (d, r))
    (ps : List PhotoRow) (q : PhotoRow)
    (hps : db.photos = ps ++ [q]) (hid : q.id = pid) (huser : q.user_id = uid)
    (hfr : ∀ s ∈ ps, (s.id == pid && s.user_id == uid) = false) :
    d = { db with
           photos := ps ++ [{ f q with updated_at := db.tick }],
           tick := db.tick + 1 } ∧
    r = { f q with updated_at := db.tick } := by
  rw [updatePhoto_append2 db pid uid f ps q hps hid huser hfr] at heq
  cases heq
  exact ⟨rfl, rfl⟩

/-- Catch-block shape: versions are preserved and the trace grows by at most
one failed write. -/
theorem enhanceCatch_shape (db : Db) (u : String)
    (job : Option EnhancementJobRow) (msg : String) (tr : List JobStatus) :
    (enhanceCatch db u job msg tr).db.photo_versions = db.photo_versions ∧
    ((enhanceCatch db u job msg tr).trace = tr ∨
      (enhanceCatch db u job msg tr).trace = tr ++ [JobStatus.failed]) := by
  obtain ⟨h1, h2⟩ := enhanceCatch_db_trace db u job msg tr
  constructor
  · rw [h1]
    exact (enhanceCatchStep_state db u job msg tr).1
  · rw [h2]
    exact enhanceCatchStep_trace db u job msg tr

/-- When the job update already failed on this state, the catch block's
compensating write fails too: state and trace are unchanged. -/
theorem enhanceCatch_after_error (db : Db) (u : String)
    (j : EnhancementJobRow) (msg : String) (tr : List JobStatus)
    (g : EnhancementJobRow → EnhancementJobRow) (e : DbErr)
    (herr : updateEnhancementJob db j.id u g = .error e) :
    (enhanceCatch db u (some j) msg tr).db = db ∧
    (enhanceCatch db u (some j) msg tr).trace = tr := by
  obtain ⟨h1, h2⟩ := enhanceCatch_db_trace db u (some j) msg tr
  have hstep : enhanceCatchStep db u (some j) msg tr = (db, tr) := by
    show (match failEnhancementJob db j.id u msg with
          | .ok (d, _) => (d, tr ++ [JobStatus.failed])
          | .error _ => (db, tr)) = (db, tr)
    unfold failEnhancementJob
    rw [updateEnhancementJob_error db j.id u g _ e herr]
  rw [hstep] at h1 h2
  exact ⟨h1, h2⟩

/-- No-image-branch shape: versions are preserved and the trace grows by at
most one failed write. -/
theorem enhanceNoImage_shape (db : Db) (req : EnhanceReq)
    (job : EnhancementJobRow) (resp : GeminiResponse) (tr : List JobStatus) :
    (enhanceNoImage db req job resp tr).db.photo_versions = db.photo_versions ∧
    ((enhanceNoImage db req job resp tr).trace = tr ∨
      (enhanceNoImage db req job resp tr).trace = tr ++ [JobStatus.failed]) := by
  simp only [enhanceNoImage]
  split
  · rename_i db' snd heq
    unfold failEnhancementJob at heq
    exact ⟨(updateEnhancementJob_ok _ _ _ _ _ _ heq).1, Or.inr rfl⟩
  · rename_i e heq
    unfold failEnhancementJob at heq
    obtain ⟨h1, h2⟩ := enhanceCatch_after_error db req.userId job e.message tr _ e heq
    exact ⟨by rw [h1], Or.inl h2⟩

/-- Success-branch shape: the versions table grows by at most one
non-original row, and the trace grows by nothing, a failed write, a
succeeded write, or succeeded then failed — the last only when the result
signed-URL call throws. -/
theorem enhanceSuccess_shape (db : Db) (env : EnhanceEnv) (req : EnhanceReq)
    (photo : PhotoView) (iv : VersionView) (job : EnhancementJobRow)
    (d : InlineData) (tr : List JobStatus) :
    (∃ tail, (enhanceSuccess db env req photo iv job d tr).db.photo_versions =
        db.photo_versions ++ tail ∧ ∀ v ∈ tail, v.is_original = false) ∧
    ((enhanceSuccess db env req photo iv job d tr).trace = tr ∨
      (enhanceSuccess db env req photo iv job d tr).trace =
        tr ++ [JobStatus.failed] ∨
      (enhanceSuccess db env req photo iv job d tr).trace =
        tr ++ [JobStatus.succeeded] ∨
      ((enhanceSuccess db env req photo iv job d tr).trace =
          tr ++ [JobStatus.succeeded, JobStatus.failed] ∧
        ∃ m, env.resultSignedUrl = .error m)) := by
  simp only [enhanceSuccess, uploadToStorage, createStorageObject,
    createPhotoVersion]
  split
  · -- the enhanced upload throws
    rename_i m hup
    obtain ⟨h1, h2⟩ := enhanceCatch_shape db req.userId (some job) m tr
    refine ⟨⟨[], by rw [List.append_nil]; exact h1, by intro v hv; cases hv⟩, ?_⟩
    exact h2.elim (fun h => Or.inl h) (fun h => Or.inr (Or.inl h))
  · -- the enhanced upload succeeds
    split
    · -- completing the job throws
      rename_i e heq
      obtain ⟨h1, h2⟩ := enhanceCatch_shape _ req.userId (some job) e.message tr
      refine ⟨⟨_, by rw [h1], ?_⟩, ?_⟩
      · intro v hv
        rw [List.mem_singleton.1 hv]
      · exact h2.elim (fun h => Or.inl h) (fun h => Or.inr (Or.inl h))
    · -- the job completes
      rename_i db4 snd heq
      unfold completeEnhancementJob at heq
      have hpres := (updateEnhancementJob_ok _ _ _ _ _ _ heq).1
      split
      · -- the result signed URL throws
        rename_i m hurl
        obtain ⟨h1, h2⟩ := enhanceCatch_shape db4 req.userId (some job) m
          (tr ++ [JobStatus.succeeded])
        refine ⟨⟨_, h1.trans hpres, ?_⟩, ?_⟩
        · intro v hv
          rw [List.mem_singleton.1 hv]
        · rcases h2 with h | h
          · exact Or.inr (Or.inr (Or.inl h))
          · refine Or.inr (Or.inr (Or.inr ⟨?_, m, hurl⟩))
            rw [h, List.append_assoc]
            rfl
      · -- everything succeeds
        refine ⟨⟨_, hpres, fun v hv => by rw [List.mem_singleton.1 hv]⟩,
          Or.inr (Or.inr (Or.inl rfl))⟩

/-- The job-status write sequences the enhance handler can produce. -/
def legalTraces : List (List JobStatus) :=
  [[], [JobStatus.queued], [JobStatus.queued, JobStatus.running],
   [JobStatus.queued, JobStatus.running, JobStatus.failed],
   [JobStatus.queued, JobStatus.running, JobStatus.succeeded],
   [JobStatus.queued, JobStatus.running, JobStatus.succeeded,
     JobStatus.failed]]

/-- The deviant sequence: a failed write after the job already succeeded. -/
def deviantTrace : List JobStatus :=
  [JobStatus.queued, JobStatus.running, JobStatus.succeeded, JobStatus.failed]

/-- Leaf facts for a catch block reached with no created job. -/
theorem enhanceCatch_none_leaf (db0 dbx : Db) (u : String) (msg : String)
    (tr : List JobStatus) (C : Prop)
    (hpres : dbx.photo_versions = db0.photo_versions)
    (htr : tr ∈ legalTraces) (hne : tr ≠ deviantTrace) :
    (∃ tail, (enhanceCatch dbx u none msg tr).db.photo_versions =
        db0.photo_versions ++ tail ∧ ∀ v ∈ tail, v.is_original = false) ∧
    (enhanceCatch dbx u none msg tr).trace ∈ legalTraces ∧
    ((enhanceCatch dbx u none msg tr).trace = deviantTrace → C) := by
  obtain ⟨h1, h2⟩ := enhanceCatch_db_trace dbx u none msg tr
  have h1a : (enhanceCatch dbx u none msg tr).db = dbx := h1
  have h2a : (enhanceCatch dbx u none msg tr).trace = tr := h2
  refine ⟨⟨[], ?_, by intro v hv; cases hv⟩, ?_, ?_⟩
  · rw [List.append_nil, h1a, hpres]
  · rw [h2a]; exact htr
  · rw [h2a]; intro hcon; exact absurd hcon hne
/-- Leaf facts for a catch block whose compensating write is doomed: the
same update already failed on this state. -/
theorem enhanceCatch_error_leaf (db0 dbx : Db) (u : String)
    (j : EnhancementJobRow) (msg : String) (tr : List JobStatus) (C : Prop)
    (g : EnhancementJobRow → EnhancementJobRow) (e : DbErr)
    (hpres : dbx.photo_versions = db0.photo_versions)
    (herr : updateEnhancementJob dbx j.id u g = .error e)
    (htr : tr ∈ legalTraces) (hne : tr ≠ deviantTrace) :
    (∃ tail, (enhanceCatch dbx u (some j) msg tr).db.photo_versions =
        db0.photo_versions ++ tail ∧ ∀ v ∈ tail, v.is_original = false) ∧
    (enhanceCatch dbx u (some j) msg tr).trace ∈ legalTraces ∧
    ((enhanceCatch dbx u (some j) msg tr).trace = deviantTrace → C) := by
  obtain ⟨h1, h2⟩ := enhanceCatch_after_error dbx u j msg tr g e herr
  refine ⟨⟨[], ?_, by intro v hv; cases hv⟩, ?_, ?_⟩
  · rw [List.append_nil, h1, hpres]
  · rw [h2]; exact htr
  · rw [h2]; intro hcon; exact absurd hcon hne
/-- Leaf facts for a generic catch block: the trace and its failed extension
must both be legal. -/
theorem enhanceCatch_some_leaf (db0 dbx : Db) (u : String)
    (job : Option EnhancementJobRow) (msg : String) (tr : List JobStatus)
    (C : Prop)
    (hpres : dbx.photo_versions = db0.photo_versions)
    (htr1 : tr ∈ legalTraces)
    (htr2 : tr ++ [JobStatus.failed] ∈ legalTraces)
    (hne1 : tr ≠ deviantTrace)
    (hne2 : tr ++ [JobStatus.failed] ≠ deviantTrace) :
    (∃ tail, (enhanceCatch dbx u job msg tr).db.photo_versions =
        db0.photo_versions ++ tail ∧ ∀ v ∈ tail, v.is_original = false) ∧
    (enhanceCatch dbx u job msg tr).trace ∈ legalTraces ∧
    ((enhanceCatch dbx u job msg tr).trace = deviantTrace → C) := by
  obtain ⟨h1, h2⟩ := enhanceCatch_shape dbx u job msg tr
  refine ⟨⟨[], ?_, by intro v hv; cases hv⟩, ?_, ?_⟩
  · rw [List.append_nil, h1, hpres]
  · rcases h2 with h | h <;> rw [h]
    exacts [htr1, htr2]
  · rcases h2 with h | h <;> rw [h] <;> intro hcon
    exacts [absurd hcon hne1, absurd hcon hne2]
/-- Leaf facts for the no-image branch. -/
theorem enhanceNoImage_leaf (db0 dbx : Db) (req : EnhanceReq)
    (job : EnhancementJobRow) (resp : GeminiResponse) (tr : List JobStatus)
    (C : Prop)
    (hpres : dbx.photo_versions = db0.photo_versions)
    (htr1 : tr ∈ legalTraces)
    (htr2 : tr ++ [JobStatus.failed] ∈ legalTraces)
    (hne1 : tr ≠ deviantTrace)
    (hne2 : tr ++ [JobStatus.failed] ≠ deviantTrace) :
    (∃ tail, (enhanceNoImage dbx req job resp tr).db.photo_versions =
        db0.photo_versions ++ tail ∧ ∀ v ∈ tail, v.is_original = false) ∧
    (enhanceNoImage dbx req job resp tr).trace ∈ legalTraces ∧
    ((enhanceNoImage dbx req job resp tr).trace = deviantTrace → C) := by
  obtain ⟨h1, h2⟩ := enhanceNoImage_shape dbx req job resp tr
  refine ⟨⟨[], ?_, by intro v hv; cases hv⟩, ?_, ?_⟩
  · rw [List.append_nil, h1, hpres]
  · rcases h2 with h | h <;> rw [h]
    exacts [htr1, htr2]
  · rcases h2 with h | h <;> rw [h] <;> intro hcon
    exacts [absurd hcon hne1, absurd hcon hne2]
/-- Leaf facts for the success branch entered with trace queued, running. -/
theorem enhanceSuccess_leaf (db0 dbx : Db) (env : EnhanceEnv)
    (req : EnhanceReq) (photo : PhotoView) (iv : VersionView)
    (job : EnhancementJobRow) (d : InlineData)
    (hpres : dbx.photo_versions = db0.photo_versions) :
    (∃ tail, (enhanceSuccess dbx env req photo iv job d
        [JobStatus.queued, JobStatus.running]).db.photo_versions =
        db0.photo_versions ++ tail ∧ ∀ v ∈ tail, v.is_original = false) ∧
    (enhanceSuccess dbx env req photo iv job d
        [JobStatus.queued, JobStatus.running]).trace ∈ legalTraces ∧
    ((enhanceSuccess dbx env req photo iv job d
        [JobStatus.queued, JobStatus.running]).trace = deviantTrace →
      ∃ m, env.resultSignedUrl = .error m) := by
  obtain ⟨⟨tail, htail, horig⟩, h2⟩ :=
    enhanceSuccess_shape dbx env req photo iv job d
      [JobStatus.queued, JobStatus.running]
  refine ⟨⟨tail, by rw [htail, hpres], horig⟩, ?_, ?_⟩
  · rcases h2 with h | h | h | ⟨h, _⟩ <;> rw [h] <;> decide
  · rcases h2 with h | h | h | ⟨h, hm⟩
    · rw [h]; intro hcon; exact absurd hcon (by decide)
    · rw [h]; intro hcon; exact absurd hcon (by decide)
    · rw [h]; intro hcon; exact absurd hcon (by decide)
    · exact fun _ => hm
/-- Whole-handler shape: the versions table only grows by non-original rows,
the status-write trace is always one of the legal sequences, and the deviant
succeeded-then-failed sequence occurs only when the post-completion
signed-URL call throws. -/
theorem enhanceHandler_shape (db : Db) (env : EnhanceEnv) (req : EnhanceReq) :
    (∃ tail, (enhanceHandler db env req).db.photo_versions =
        db.photo_versions ++ tail ∧ ∀ v ∈ tail, v.is_original = false) ∧
    (enhanceHandler db env req).trace ∈ legalTraces ∧
    ((enhanceHandler db env req).trace = deviantTrace →
      ∃ m, env.resultSignedUrl = .error m) := by
  unfold enhanceHandler
  split
  · -- getPhoto threw
    exact enhanceCatch_none_leaf db db req.userId _ [] _ rfl (by decide)
      (by decide)
  · rename_i photo
    split
    · -- no input version: plain 400 response
      refine ⟨⟨[], ?_, by intro v hv; cases hv⟩, ?_, ?_⟩
      · rw [List.append_nil]
      · show ([] : List JobStatus) ∈ legalTraces
        decide
      · intro hcon
        exact absurd (show ([] : List JobStatus) = deviantTrace from hcon)
          (by decide)
    · rename_i iv
      simp only [createEnhancementJob, startEnhancementJob]
      split
      · -- starting the job threw
        rename_i e heq
        exact enhanceCatch_error_leaf db _ req.userId _ _ [JobStatus.queued]
          _ _ e rfl heq (by decide) (by decide)
      · rename_i db2 snd heq
        have hpres2 : db2.photo_versions = db.photo_versions :=
          (updateEnhancementJob_ok _ _ _ _ _ _ heq).1
        split
        · -- the input version has no storage row
          refine enhanceCatch_some_leaf db db2 req.userId _ _ _ _ hpres2
            ?_ ?_ ?_ ?_ <;> decide
        · split
          · -- the input signed URL threw
            refine enhanceCatch_some_leaf db db2 req.userId _ _ _ _ hpres2
              ?_ ?_ ?_ ?_ <;> decide
          · split
            · -- the image fetch threw
              refine enhanceCatch_some_leaf db db2 req.userId _ _ _ _ hpres2
                ?_ ?_ ?_ ?_ <;> decide
            · split
              · -- the model call threw
                refine enhanceCatch_some_leaf db db2 req.userId _ _ _ _ hpres2
                  ?_ ?_ ?_ ?_ <;> decide
              · split
                · -- no image extracted
                  refine enhanceNoImage_leaf db db2 _ _ _ _ _ hpres2
                    ?_ ?_ ?_ ?_ <;> decide
                · split
                  · -- inline data empty: the no-image branch again
                    refine enhanceNoImage_leaf db db2 _ _ _ _ _ hpres2
                      ?_ ?_ ?_ ?_ <;> decide
                  · -- the success tail
                    exact enhanceSuccess_leaf db db2 env _ _ _ _ _ hpres2

/-- No stored photo matches an id at or above the tick counter. -/
theorem photos_fresh_beq (db : Db) (uid : String) (pid : Nat)
    (h : ∀ p ∈ db.photos, p.id < db.tick) (hle : db.tick ≤ pid) :
    ∀ p ∈ db.photos, (p.id == pid && p.user_id == uid) = false := by
  intro p hp
  have hne : (p.id == pid) = false := by
    simp [Nat.ne_of_lt (Nat.lt_of_lt_of_le (h p hp) hle)]
  rw [hne, Bool.false_and]

/-- The upload handler creates one photo whose version list is exactly one
original version. -/
theorem photosUploadHandler_original (db : Db) (req : UploadReq) (f : MFile)
    (hfile : req.file = some f)
    (hWF : ∀ v ∈ db.photo_versions, v.photo_id < db.tick) :
    ∃ p v, (photosUploadHandler db req).photoId = some p ∧
      (photosUploadHandler db req).db.photo_versions.filter
        (fun w => w.photo_id == p) = [v] ∧ v.is_original = true := by
  simp only [photosUploadHandler, hfile, uploadToStorage, createStorageObject,
    createPhoto, createPhotoVersion]
  refine ⟨db.tick + 1 + 1,
    { id := db.tick + 1 + 1 + 1, user_id := req.userId,
      photo_id := db.tick + 1 + 1, storage_object_id := db.tick + 1,
      is_original := true, parent_version_id := none, label := "Original",
      notes := none, created_at := db.tick + 1 + 1 + 1, deleted_at := none },
    rfl, ?_, rfl⟩
  rw [List.filter_append,
    versions_filter_nil db (db.tick + 1 + 1) hWF (by omega),
    List.nil_append]
  simp

/-- Filtering a table extended by two rows of the fresh photo returns
exactly those rows. -/
theorem filter_append_two (A : List PhotoVersionRow) (vo ve : PhotoVersionRow)
    (pid : Nat) (hA : A.filter (fun w => w.photo_id == pid) = [])
    (ho : vo.photo_id = pid) (he : ve.photo_id = pid) :
    (A ++ [vo] ++ [ve]).filter (fun w => w.photo_id == pid) = [vo, ve] := by
  rw [List.filter_append, List.filter_append, hA, List.nil_append]
  simp [ho, he]

/-- Under fresh-id hypotheses the save tail succeeds: the new photo's
version list is exactly the original version and the enhanced version
parented on it. -/
theorem saveFinish_versions (db4 : Db) (req : SaveReq) (fe : MFile)
    (pid soId : Nat) (notes : Option String)
    (hv : db4.photo_versions.filter (fun w => w.photo_id == pid) = [])
    (hj : ∀ k ∈ db4.enhancement_jobs, k.id < db4.tick) :
    ∃ p vo ve, (saveFinish db4 req fe pid soId notes).photoId = some p ∧
      (saveFinish db4 req fe pid soId notes).db.photo_versions.filter
        (fun w => w.photo_id == p) = [vo, ve] ∧
      vo.is_original = true ∧ ve.is_original = false ∧
      ve.parent_version_id = some vo.id := by
  simp only [saveFinish, createPhotoVersion, uploadToStorage,
    createStorageObject, createEnhancementJob, startEnhancementJob,
    completeEnhancementJob, createComment]
  split
  · rename_i e hstart
    exact (updateEnhancementJob_append_ne_error _ _ _ _ _ hstart _ _ rfl rfl
      rfl (jobs_fresh_beq db4 req.userId _ hj
        (by first | omega | (dsimp only; omega)))).elim
  · rename_i db10 y hstart
    obtain ⟨rfl, rfl⟩ := updateEnhancementJob_append_ok _ _ _ _ _ _ hstart
      _ _ rfl rfl rfl
      (jobs_fresh_beq db4 req.userId _ hj
        (by first | omega | (dsimp only; omega)))
    split
    · rename_i e2 hcomp
      exact (updateEnhancementJob_append_ne_error _ _ _ _ _ hcomp _ _ rfl rfl
        rfl (jobs_fresh_beq db4 req.userId _ hj
          (by first | omega | (dsimp only; omega)))).elim
    · rename_i db11 z hcomp
      obtain ⟨rfl, rfl⟩ := updateEnhancementJob_append_ok _ _ _ _ _ _ hcomp
        _ _ rfl rfl rfl
        (jobs_fresh_beq db4 req.userId _ hj
          (by first | omega | (dsimp only; omega)))
      rcases notes with _ | b
      · exact ⟨pid, _, _, rfl, filter_append_two _ _ _ _ hv rfl rfl,
          rfl, rfl, rfl⟩
      · exact ⟨pid, _, _, rfl, filter_append_two _ _ _ _ hv rfl rfl,
          rfl, rfl, rfl⟩

/-- The save-to-library handler creates one photo carrying exactly one
original version and one non-original version parented on it. -/
theorem saveToLibraryHandler_versions (db : Db) (req : SaveReq) (fo fe : MFile)
    (ho : req.original = some fo) (he : req.enhanced = some fe)
    (hWFv : ∀ v ∈ db.photo_versions, v.photo_id < db.tick)
    (hWFp : ∀ p ∈ db.photos, p.id < db.tick)
    (hWFj : ∀ k ∈ db.enhancement_jobs, k.id < db.tick) :
    ∃ p vo ve, (saveToLibraryHandler db req).photoId = some p ∧
      (saveToLibraryHandler db req).db.photo_versions.filter
        (fun w => w.photo_id == p) = [vo, ve] ∧
      vo.is_original = true ∧ ve.is_original = false ∧
      ve.parent_version_id = some vo.id := by
  simp only [saveToLibraryHandler, ho, he, uploadToStorage,
    createStorageObject, createPhoto]
  split
  · -- the assigned-date update threw: impossible on the fresh photo
    rename_i e heq
    rcases hAD : req.assignedDate with _ | s <;>
      rw [hAD] at heq <;> simp only [jsTrimOrNull] at heq
    · cases heq
    · by_cases hs : s = ""
      · rw [if_pos hs] at heq
        cases heq
      · rw [if_neg hs] at heq
        exact (updatePhoto_append_ne_error _ _ _ _ _ heq _ _ rfl rfl rfl
          (photos_fresh_beq db req.userId _ hWFp
            (by first | omega | (dsimp only; omega)))).elim
  · rename_i db4 x heq
    rcases hAD : req.assignedDate with _ | s <;>
      rw [hAD] at heq <;> simp only [jsTrimOrNull] at heq
    · cases heq
      refine saveFinish_versions _ req fe _ _ _ ?_ ?_
      · exact versions_filter_nil db _ hWFv
          (by first | omega | (dsimp only; omega))
      · intro k hk
        exact Nat.lt_of_lt_of_le (hWFj k hk)
          (by first | omega | (dsimp only; omega))
    · by_cases hs : s = ""
      · rw [if_pos hs] at heq
        cases heq
        refine saveFinish_versions _ req fe _ _ _ ?_ ?_
        · exact versions_filter_nil db _ hWFv
            (by first | omega | (dsimp only; omega))
        · intro k hk
          exact Nat.lt_of_lt_of_le (hWFj k hk)
            (by first | omega | (dsimp only; omega))
      · rw [if_neg hs] at heq
        obtain ⟨rfl, rfl⟩ := updatePhoto_append_ok _ _ _ _ _ _ heq _ _ rfl
          rfl rfl (photos_fresh_beq db req.userId _ hWFp
            (by first | omega | (dsimp only; omega)))
        refine saveFinish_versions _ req fe _ _ _ ?_ ?_
        · exact versions_filter_nil db _ hWFv
            (by first | omega | (dsimp only; omega))
        · intro k hk
          exact Nat.lt_of_lt_of_le (hWFj k hk)
            (by first | omega | (dsimp only; omega))

/-- C1: across the three creation paths, upload creates exactly one version
and it is the original; the enhance handler only ever appends non-original
versions; save-to-library creates exactly one original and one non-original
version parented on the original. -/
theorem creation_paths_one_original :
    (∀ (db : Db) (req : UploadReq) (f : MFile), req.file = some f →
      (∀ v ∈ db.photo_versions, v.photo_id < db.tick) →
      ∃ p v, (photosUploadHandler db req).photoId = some p ∧
        (photosUploadHandler db req).db.photo_versions.filter
          (fun w => w.photo_id == p) = [v] ∧ v.is_original = true) ∧
    (∀ (db : Db) (env : EnhanceEnv) (req : EnhanceReq), ∃ tail,
      (enhanceHandler db env req).db.photo_versions =
        db.photo_versions ++ tail ∧ ∀ v ∈ tail, v.is_original = false) ∧
    (∀ (db : Db) (req : SaveReq) (fo fe : MFile),
      req.original = some fo → req.enhanced = some fe →
      (∀ v ∈ db.photo_versions, v.photo_id < db.tick) →
      (∀ p ∈ db.photos, p.id < db.tick) →
      (∀ k ∈ db.enhancement_jobs, k.id < db.tick) →
      ∃ p vo ve, (saveToLibraryHandler db req).photoId = some p ∧
        (saveToLibraryHandler db req).db.photo_versions.filter
          (fun w => w.photo_id == p) = [vo, ve] ∧
        vo.is_original = true ∧ ve.is_original = false ∧
        ve.parent_version_id = some vo.id) :=
  ⟨fun db req f hf hWF => photosUploadHandler_original db req f hf hWF,
    fun db env req => (enhanceHandler_shape db env req).1,
    fun db req fo fe ho he h1 h2 h3 =>
      saveToLibraryHandler_versions db req fo fe ho he h1 h2 h3⟩

/-- The cat file as uploaded in the scenarios. -/
def fileCat : MFile :=
  { buffer := "CATBYTES", mimetype := "image/jpeg", size := 8,
    originalname := "cat.jpg" }

/-- The enhanced blob of the save-to-library scenario. -/
def fileCatEnhanced : MFile :=
  { buffer := "CATENH", mimetype := "image/jpeg", size := 6,
    originalname := "cat-enhanced.jpg" }

/-- Upload request carrying the cat file. -/
def upReqCat : UploadReq :=
  { userId := "alice", file := some fileCat, title := none, folderId := none }

/-- Save-to-library request carrying both blobs. -/
def saveReqCat : SaveReq :=
  { userId := "alice", original := some fileCat,
    enhanced := some fileCatEnhanced, title := some "Cat",
    notes := some "restored", assignedDate := none, folderId := none,
    additionalInstructions := none }

/-- Witness: the three creation paths at the fixture inputs. -/
theorem creation_paths_one_original_witness :
    (∃ p v, (photosUploadHandler dbEmpty upReqCat).photoId = some p ∧
      (photosUploadHandler dbEmpty upReqCat).db.photo_versions.filter
        (fun w => w.photo_id == p) = [v] ∧ v.is_original = true) ∧
    (∃ tail, (enhanceHandler dbCat envOk reqCat).db.photo_versions =
      dbCat.photo_versions ++ tail ∧ ∀ v ∈ tail, v.is_original = false) ∧
    (∃ p vo ve, (saveToLibraryHandler dbEmpty saveReqCat).photoId = some p ∧
      (saveToLibraryHandler dbEmpty saveReqCat).db.photo_versions.filter
        (fun w => w.photo_id == p) = [vo, ve] ∧
      vo.is_original = true ∧ ve.is_original = false ∧
      ve.parent_version_id = some vo.id) :=
  ⟨creation_paths_one_original.1 dbEmpty upReqCat fileCat rfl
      (by intro v hv; cases hv),
    creation_paths_one_original.2.1 dbCat envOk reqCat,
    creation_paths_one_original.2.2 dbEmpty saveReqCat fileCat fileCatEnhanced
      rfl rfl (by intro v hv; cases hv) (by intro p hp; cases hp)
      (by intro k hk; cases hk)⟩

/-- The environment of a request where every external call succeeds except
the final signed-URL fetch for the enhanced object. -/
def envUrlFail : EnhanceEnv :=
  { envOk with resultSignedUrl := .error "signed url service unavailable" }

/-- C2 counterexample: when the post-completion signed-URL call throws, the
enhance handler writes queued, running, succeeded and then failed to the
same job: the catch block's compensating write moves the job OUT of the
terminal succeeded state, leaving it failed while its output version (id 14)
exists and is still referenced. -/
theorem enhance_succeeded_then_failed_counterexample :
    (enhanceHandler dbCat envUrlFail reqCat).trace =
      [JobStatus.queued, JobStatus.running, JobStatus.succeeded,
        JobStatus.failed] ∧
    (enhanceHandler dbCat envUrlFail reqCat).db.enhancement_jobs.map
      (fun j => (j.status, j.output_version_id)) =
      [(JobStatus.failed, some 14)] ∧
    (enhanceHandler dbCat envUrlFail reqCat).db.photo_versions.map
      (fun v => (v.id, v.is_original)) = [(2, true), (14, false)] ∧
    (enhanceHandler dbCat envUrlFail reqCat).httpStatus = 500 :=
  ⟨rfl, rfl, rfl, rfl⟩

/-- C2: the statuses any one enhance-handler run writes to its job follow a
prefix of queued, running, then succeeded or failed, and the only run that
extends past a terminal status — succeeded then failed — happens exactly
when the signed-URL call made after completion throws. -/
theorem enhance_job_status_trace (db : Db) (env : EnhanceEnv)
    (req : EnhanceReq) :
    (enhanceHandler db env req).trace ∈ legalTraces ∧
    ((enhanceHandler db env req).trace = deviantTrace →
      ∃ m, env.resultSignedUrl = .error m) :=
  ⟨(enhanceHandler_shape db env req).2.1,
    (enhanceHandler_shape db env req).2.2⟩

/-- Witness: at the fixture where the result signed-URL call throws, the
trace is legal and the deviant implication fires with its conclusion. -/
theorem enhance_job_status_trace_witness :
    (enhanceHandler dbCat envUrlFail reqCat).trace ∈ legalTraces ∧
    (∃ m, envUrlFail.resultSignedUrl = .error m) :=
  ⟨(enhance_job_status_trace dbCat envUrlFail reqCat).1,
    (enhance_job_status_trace dbCat envUrlFail reqCat).2 (by decide)⟩

end LivingMemories